import Mathlib

/-!
Verification development for the navigation/completion orchestration core of
html-pdf-chrome (src/index.ts).  The source's asynchronous, single-threaded
control flow is embedded as a deterministic interpreter over an explicit
state, parameterised by an environment that fixes the outcome of every
external operation and the moment at which the armed timeout timer fires.
-/

/- ## Content classification (src/index.ts line 71) -/

/-- ASCII-only lower-casing of one character: only the letters A-Z fold.  This
is the canonicalisation a case-insensitive JavaScript regular expression
without the unicode flag applies to the characters relevant here (a non-ASCII
character never canonicalises onto an ASCII one in that mode). -/
def asciiLower (c : Char) : Char :=
  if 'A' ≤ c ∧ c ≤ 'Z' then Char.ofNat (c.toNat + 32) else c

/-- Case-insensitive literal matcher: consume the pattern `p` (given in lower
case) from the front of `cs`, comparing ASCII-case-insensitively; return the
unconsumed rest of `cs` on success.  This is the semantics of a literal inside
a `/.../i` regular expression. -/
def matchLitCI : List Char → List Char → Option (List Char)
  | [], cs => some cs
  | _ :: _, [] => none
  | p :: ps, c :: cs => if asciiLower c = p then matchLitCI ps cs else none

/-- The test `/^(https?|file|data):/i.test(html)` from `generate`
(src/index.ts line 71): an anchored alternation of literals, each followed by
a colon, with the `s` of `https?` optional (the greedy branch is tried first
and the matcher backtracks, exactly as the regex engine does). -/
def regexSchemeTest (s : String) : Bool :=
  (match matchLitCI ['h', 't', 't', 'p'] s.data with
   | some rest => (matchLitCI ['s', ':'] rest).isSome || (matchLitCI [':'] rest).isSome
   | none => false)
  || (matchLitCI ['f', 'i', 'l', 'e', ':'] s.data).isSome
  || (matchLitCI ['d', 'a', 't', 'a', ':'] s.data).isSome

/-- The URL handed to `Page.navigate` (src/index.ts line 71): the input itself
when the scheme test matches, otherwise the input wrapped into a data URI. -/
def navigationUrl (html : String) : String :=
  if regexSchemeTest html then html else "data:text/html," ++ html

/-- Modelled from the spec: content "classified as HTTP/HTTPS/file/data URI",
read as: the string starts, case-insensitively, with one of the scheme
prefixes "http:", "https:", "file:", "data:". -/
def specSchemeTest (s : String) : Bool :=
  ["http:", "https:", "file:", "data:"].any
    (fun p => p.data.isPrefixOf (s.data.map asciiLower))

/- ## Data model (CreateOptions.d.ts, CreateResult.d.ts, src/index.ts) -/

/-- Chrome Page.printToPDF options (CreateOptions.d.ts).  JavaScript numbers
are carried as rationals; the core forwards this record verbatim. -/
structure ChromePrintOptions where
  landscape : Option Bool := none
  displayHeaderFooter : Option Bool := none
  printBackground : Option Bool := none
  scale : Option Rat := none
  paperWidth : Option Rat := none
  paperHeight : Option Rat := none
  marginTop : Option Rat := none
  marginBottom : Option Rat := none
  marginLeft : Option Rat := none
  marginRight : Option Rat := none
  pageRanges : Option String := none
deriving Repr, DecidableEq

/-- The options bag of `create()` (CreateOptions plus every field index.ts
reads).  Caller callbacks and the completion trigger are modelled by their
presence; the trigger's behaviour lives in the environment, since its
implementation is outside this source file and specified only by its wait
contract.  The `_canceled` field is the cancellation flag the timer sets. -/
structure CreateOptions where
  host : Option String := none
  port : Option Nat := none
  timeout : Option Int := none
  clearCache : Bool := false
  runtimeConsoleHandler : Bool := false
  runtimeExceptionHandler : Bool := false
  cookies : Option (List String) := none
  completionTrigger : Bool := false
  chromePath : Option String := none
  chromeFlags : Option (List String) := none
  printOptions : Option ChromePrintOptions := none
  _canceled : Bool := false
deriving Repr, DecidableEq

/-- Shape of a completion trigger's wait outcome as `afterNavigate` inspects
it: possibly absent, and when present possibly carrying exceptionDetails
together with a result value used as the error message (spec section 4.2). -/
structure WaitOutcome where
  exceptionDetails : Bool := false
  resultValue : String := ""
deriving Repr, DecidableEq

/-- The external process / protocol operations `create()` can invoke. -/
inductive Op where
  | launch | newTab | connect | clearCache | enableEvents | setCookies
  | navigateOp | loadEvent | triggerWait | printToPDF | closeTab | kill
deriving Repr, DecidableEq

/-- The errors `create()` can settle with: the Timeout error thrown by
`throwIfCanceled`, a transport-level failure of one operation, or the
evaluation error built from a trigger outcome's result value.  The three are
distinct by construction. -/
inductive PdfError where
  | timeout
  | transport (op : Op)
  | evaluation (msg : String)
deriving Repr, DecidableEq

/-- Observable events of one execution, recorded when the corresponding call
is issued: `guardTrip` when a `throwIfCanceled` check observes the flag set,
`consoleSub` / `exceptionSub` for the fire-and-forget subscriptions, and
`clientClose` for the unawaited `client.close()`. -/
inductive Ev where
  | launchChrome | newTab | connect | clearCacheEv | enableEvents
  | consoleSub | exceptionSub | setCookies
  | navigate | loadEvent | triggerWait | printToPDF
  | guardTrip | clientClose | closeTab | kill
deriving Repr, DecidableEq

/-- CreateResult: holder of the base64 PDF data (CreateResult.d.ts). -/
structure CreateResult where
  data : String
deriving Repr, DecidableEq

deriving instance DecidableEq for Except

/-- How a completion trigger's wait promise settles: rejected at transport
level, or resolved with a possibly-absent outcome. -/
inductive WaitRes where
  | failed
  | resolved (w : Option WaitOutcome)
deriving Repr, DecidableEq

/-- One execution's environment: the outcome of every external operation, the
settle order of the navigate/load join, the PDF payload, and the moment (in
completed-await steps) after which the armed timer has fired.  The timer
callback can only run while the program is suspended awaiting real I/O, so it
is observed at await boundaries: after the k-th await completes, the flag is
set if and only if the timer is armed and `fireAfter < k`. -/
structure Env where
  fireAfter : Nat := 1000000
  launchRes : Option Nat := some 9222
  newTabOk : Bool := true
  connectOk : Bool := true
  clearCacheOk : Bool := true
  enableOk : Bool := true
  setCookiesOk : Bool := true
  navFirst : Bool := true
  navigateOk : Bool := true
  loadEventOk : Bool := true
  waitRes : WaitRes := .resolved none
  pdfData : String := "JVBERi0"
  printOk : Bool := true
  closeTabOk : Bool := true
  killOk : Bool := true
deriving Repr, DecidableEq

/-- Interpreter state: the await-step clock, the event trace, the URL last
handed to navigation, the caller's options object, and the internal copy that
`Object.assign({}, options)` made at entry — the only object the source ever
writes to (and it only ever writes the top-level fields `_canceled` and
`port`, so the shallowness of the copy is not observable). -/
structure S where
  steps : Nat
  trace : List Ev
  navigatedUrl : Option String
  callerOpts : CreateOptions
  myOpts : CreateOptions
deriving Repr, DecidableEq

/- ## The interpreter (src/index.ts) -/

/-- Is the timer armed?  index.ts line 31: `myOptions.timeout >= 0`.  In
JavaScript `undefined >= 0` is false, so an absent timeout never arms the
timer, while a timeout of exactly 0 does arm it. -/
def timeoutArmed : Option Int → Bool
  | none => false
  | some t => decide (0 ≤ t)

/-- JavaScript truthiness of an optional string (the empty string is falsy). -/
def truthyStr : Option String → Bool
  | none => false
  | some s => decide (s ≠ "")

/-- JavaScript truthiness of an optional number (0 is falsy). -/
def truthyNat : Option Nat → Bool
  | none => false
  | some n => decide (n ≠ 0)

def DEFAULT_CHROME_FLAGS : List String :=
  ["--disable-gpu", "--headless", "--hide-scrollbars"]

/-- The flag list handed to launch: `options.chromeFlags || DEFAULT_CHROME_FLAGS`
(src/index.ts line 160).  Any supplied array is truthy in JavaScript, even the
empty one, so only an absent field falls back to the defaults. -/
def launchFlags (opts : CreateOptions) : List String :=
  opts.chromeFlags.getD DEFAULT_CHROME_FLAGS

/-- Record an observable event. -/
def record (e : Ev) (s : S) : S :=
  { s with trace := s.trace ++ [e] }

/-- Complete one await: advance the step clock and, when the armed timer has
fired by the new clock value, set the cancellation flag on the internal
options copy (the timer callback of src/index.ts lines 32-34). -/
def tick (env : Env) (s : S) : S :=
  if timeoutArmed s.myOpts.timeout && decide (env.fireAfter < s.steps + 1) then
    { s with steps := s.steps + 1, myOpts := { s.myOpts with _canceled := true } }
  else
    { s with steps := s.steps + 1 }

/-- `throwIfCanceled` (src/index.ts lines 144-148): reject with the Timeout
error when the flag on the options copy is set.  A trip is recorded as a
`guardTrip` event. -/
def throwIfCanceled (s : S) : S × Except PdfError Unit :=
  if s.myOpts._canceled then (record .guardTrip s, .error .timeout)
  else (s, .ok ())

/-- One awaited protocol or process call: record its event at issuance,
complete the await (advancing the timer clock), and either succeed or reject
with a transport error naming the operation. -/
def ioStep (env : Env) (e : Ev) (ok : Bool) (op : Op) (s : S) : S × Except PdfError Unit :=
  let s1 := tick env (record e s)
  (s1, if ok then .ok () else .error (.transport op))

/-- Sequencing of awaited computations: a rejection short-circuits. -/
def andThen (r : S × Except PdfError Unit) (k : S → S × Except PdfError α) :
    S × Except PdfError α :=
  match r with
  | (s, .ok ()) => k s
  | (s, .error e) => (s, .error e)

/-- JavaScript `try`/`finally` with an awaited finalizer: the finalizer always
runs and, when it rejects, its error replaces the body's outcome — whether
that outcome was a value or an error.  This is JavaScript's semantics and the
crux of the error-masking question. -/
def tryFinallyM (body : S → S × Except PdfError α) (fin : S → S × Except PdfError Unit)
    (s : S) : S × Except PdfError α :=
  match body s with
  | (s1, r) =>
    match fin s1 with
    | (s2, .ok ()) => (s2, r)
    | (s2, .error e) => (s2, .error e)

/-- `beforeNavigate` (src/index.ts lines 93-117): guard; optional cache clear;
enable the Page and Runtime event channels (one joined await); the optional
fire-and-forget console and exception subscriptions, each preceded by a
guard; optional cookie injection, guarded; final guard.  All configuration is
read from the options copy carried in the state, as the source reads it from
the `options` argument it was handed (which is that copy). -/
def beforeNavigate (env : Env) (s : S) : S × Except PdfError Unit :=
  andThen (throwIfCanceled s) fun s =>
  andThen (if s.myOpts.clearCache then
             ioStep env .clearCacheEv env.clearCacheOk .clearCache s
           else (s, .ok ())) fun s =>
  andThen (ioStep env .enableEvents env.enableOk .enableEvents s) fun s =>
  andThen (if s.myOpts.runtimeConsoleHandler then
             andThen (throwIfCanceled s) fun s => (record .consoleSub s, .ok ())
           else (s, .ok ())) fun s =>
  andThen (if s.myOpts.runtimeExceptionHandler then
             andThen (throwIfCanceled s) fun s => (record .exceptionSub s, .ok ())
           else (s, .ok ())) fun s =>
  andThen (if s.myOpts.cookies.isSome then
             andThen (throwIfCanceled s) fun s =>
               ioStep env .setCookies env.setCookiesOk .setCookies s
           else (s, .ok ())) fun s =>
  throwIfCanceled s

/-- The unordered join `Promise.all([Page.navigate({url}), Page.loadEventFired()])`
(src/index.ts lines 72-75): both operations are issued, they settle in an
environment-chosen order, each settlement completes an await boundary, and
the first rejection wins. -/
def navLoadJoin (env : Env) (url : String) (s : S) : S × Except PdfError Unit :=
  let s0 := { s with navigatedUrl := some url }
  if env.navFirst then
    andThen (ioStep env .navigate env.navigateOk .navigateOp s0) fun s =>
    ioStep env .loadEvent env.loadEventOk .loadEvent s
  else
    andThen (ioStep env .loadEvent env.loadEventOk .loadEvent s0) fun s =>
    ioStep env .navigate env.navigateOk .navigateOp s

/-- `afterNavigate` (src/index.ts lines 126-136): when a completion trigger is
configured, guard, await its wait, and — when the outcome is truthy and
carries exceptionDetails — guard once more (so cancellation takes precedence)
before throwing the evaluation error built from the outcome's result value;
in every case a final guard follows. -/
def afterNavigate (env : Env) (s : S) : S × Except PdfError Unit :=
  andThen
    (if s.myOpts.completionTrigger then
       andThen (throwIfCanceled s) fun s =>
       let s1 := tick env (record .triggerWait s)
       match env.waitRes with
       | .failed => (s1, .error (.transport .triggerWait))
       | .resolved none => (s1, .ok ())
       | .resolved (some w) =>
         if w.exceptionDetails then
           andThen (throwIfCanceled s1) fun s2 => (s2, .error (.evaluation w.resultValue))
         else (s1, .ok ())
     else (s, .ok ()))
    fun s => throwIfCanceled s

/-- `generate` (src/index.ts lines 65-84): guard; connect the client; then,
under a finalizer that issues the unawaited `client.close()` (which therefore
can neither advance the clock nor replace the outcome), run `beforeNavigate`,
the navigate/load join on the URL computed from the content, `afterNavigate`,
`printToPDF`, and a final guard, producing the CreateResult from the printed
data. -/
def generate (env : Env) (html : String) (s : S) : S × Except PdfError CreateResult :=
  andThen (throwIfCanceled s) fun s =>
  andThen (ioStep env .connect env.connectOk .connect s) fun s =>
  tryFinallyM
    (fun s =>
      andThen (beforeNavigate env s) fun s =>
      andThen (navLoadJoin env (navigationUrl html) s) fun s =>
      andThen (afterNavigate env s) fun s =>
      andThen (ioStep env .printToPDF env.printOk .printToPDF s) fun s =>
      andThen (throwIfCanceled s) fun s =>
      (s, .ok (CreateResult.mk env.pdfData)))
    (fun s => (record .clientClose s, .ok ()))
    s

/-- `launchChrome` (src/index.ts lines 156-164): await launch with the port
hint, path and flags; on success write the bound port back into the options
copy it was handed. -/
def launchChrome (env : Env) (s : S) : S × Except PdfError Unit :=
  let s1 := tick env (record .launchChrome s)
  match env.launchRes with
  | none => (s1, .error (.transport .launch))
  | some boundPort =>
    ({ s1 with myOpts := { s1.myOpts with port := some boundPort } }, .ok ())

/-- The inner resource scope of `create` (src/index.ts lines 43-49): open a
tab with `CDP.New` and, under a finalizer that awaits `CDP.Close`, run
`generate`. -/
def tabAndGenerate (env : Env) (html : String) (s : S) : S × Except PdfError CreateResult :=
  andThen (ioStep env .newTab env.newTabOk .newTab s) fun s =>
  tryFinallyM (generate env html)
    (fun s => ioStep env .closeTab env.closeTabOk .closeTab s) s

/-- The opening state of one create() call: fresh clock and trace, the
caller's options object, and the copy `Object.assign({}, options)` made at
entry with its cancellation flag reset (src/index.ts lines 27-30). -/
def initS (opts : CreateOptions) : S :=
  { steps := 0, trace := [], navigatedUrl := none,
    callerOpts := opts, myOpts := { opts with _canceled := false } }

/-- `create` (src/index.ts lines 26-55): copy the caller's options with
`Object.assign({}, options)`, reset the copy's cancellation flag, arm the
timer when `timeout >= 0`; guard; when neither host nor port is truthy, guard
again and launch Chrome (rewriting the copy's port); then — only when a
launch happened — under a finalizer that awaits `chrome.kill()`, run the
tab scope.  A launch failure propagates before the kill scope is entered,
matching the source, where `chrome` is still undefined at that point. -/
def create (env : Env) (html : String) (opts : CreateOptions) :
    S × Except PdfError CreateResult :=
  andThen (throwIfCanceled (initS opts)) fun s =>
  if truthyStr s.myOpts.host || truthyNat s.myOpts.port then
    tabAndGenerate env html s
  else
    andThen (throwIfCanceled s) fun s =>
    andThen (launchChrome env s) fun s =>
    tryFinallyM (tabAndGenerate env html)
      (fun s => ioStep env .kill env.killOk .kill s) s

/- ## Lemmas: content classification -/

theorem matchLitCI_isSome (p cs : List Char) :
    (matchLitCI p cs).isSome = p.isPrefixOf (cs.map asciiLower) := by
  induction p generalizing cs with
  | nil => simp [matchLitCI, List.isPrefixOf]
  | cons a as ih =>
    cases cs with
    | nil => simp [matchLitCI, List.isPrefixOf]
    | cons c cs' =>
      simp only [matchLitCI, List.map_cons, List.isPrefixOf]
      by_cases h : asciiLower c = a
      · have hb : (a == asciiLower c) = true := by simp [h]
        simp [h, hb, ih]
      · have hb : (a == asciiLower c) = false := by
          simp only [beq_eq_false_iff_ne]
          exact fun e => h e.symm
        simp [h, hb]

theorem matchLitCI_append (p q cs : List Char) :
    matchLitCI (p ++ q) cs = (matchLitCI p cs).bind (matchLitCI q) := by
  induction p generalizing cs with
  | nil => simp [matchLitCI]
  | cons a as ih =>
    cases cs with
    | nil => simp [matchLitCI]
    | cons c cs' =>
      simp only [List.cons_append, matchLitCI]
      by_cases h : asciiLower c = a
      · simp [h, ih]
      · simp [h]

theorem regexSchemeTest_eq_spec (s : String) : regexSchemeTest s = specSchemeTest s := by
  unfold regexSchemeTest specSchemeTest
  simp only [List.any_cons, List.any_nil, Bool.or_false]
  rw [← matchLitCI_isSome, ← matchLitCI_isSome, ← matchLitCI_isSome, ← matchLitCI_isSome]
  have h1 : ['h', 't', 't', 'p', ':'] = ['h', 't', 't', 'p'] ++ [':'] := rfl
  have h2 : ['h', 't', 't', 'p', 's', ':'] = ['h', 't', 't', 'p'] ++ ['s', ':'] := rfl
  rw [h1, h2, matchLitCI_append, matchLitCI_append]
  cases h : matchLitCI ['h', 't', 't', 'p'] s.data with
  | none => simp [h]
  | some rest =>
    simp only [h, Option.bind_some]
    cases hs : (matchLitCI ['s', ':'] rest).isSome <;>
      cases hc : (matchLitCI [':'] rest).isSome <;>
        simp [hs, hc]

/-- C2: the URL handed to the navigation command is the input exactly when the
input starts (case-insensitively) with one of the scheme prefixes http:,
https:, file:, data:, and otherwise is the string data:text/html, followed by
the input.  Stated against the spec-side classification; the bridge to the
source's regular-expression test is `regexSchemeTest_eq_spec`. -/
theorem navigationUrl_matches_spec (html : String) :
    navigationUrl html = if specSchemeTest html then html else "data:text/html," ++ html := by
  unfold navigationUrl
  rw [regexSchemeTest_eq_spec]

/- ## Concrete executions -/

/-- C1 counterexample: with a timeout of exactly 0 — a value that is ≤ 0 — the
arming condition `myOptions.timeout >= 0` (src/index.ts line 31) does arm the
timer; in a schedule where it fires while the second await is pending, the
cancellation flag is set and create rejects with the Timeout error, refuting
the claim that a timeout ≤ 0 can never produce a Timeout rejection. -/
theorem zeroTimeout_can_reject_timeout :
    (create { fireAfter := 2 } "<h1>hi</h1>" { timeout := some 0 }).1.myOpts._canceled = true
    ∧ (create { fireAfter := 2 } "<h1>hi</h1>" { timeout := some 0 }).2 = .error .timeout := by
  constructor <;> rfl

/-- C6 counterexample: timeout 10 > 0 is armed; every operation succeeds and
the timer fires after the final guard checkpoint but before the call settles
(it fires once 7 awaits have completed, and the run completes 9, so the flag
is indeed set when create settles).  Total generation time therefore exceeded
the deadline, yet create resolves successfully instead of rejecting with the
Timeout error. -/
theorem late_firing_timer_still_resolves :
    timeoutArmed (some (10 : Int)) = true
    ∧ (create { fireAfter := 7 } "x" { timeout := some 10 }).1.steps = 9
    ∧ (create { fireAfter := 7 } "x" { timeout := some 10 }).1.myOpts._canceled = true
    ∧ (create { fireAfter := 7 } "x" { timeout := some 10 }).2
        = .ok (CreateResult.mk "JVBERi0") := by
  refine ⟨rfl, rfl, rfl, rfl⟩

/-- C7, evaluated at the failing input: printToPDF rejects and the awaited
CDP.Close in the enclosing finally also rejects; JavaScript's finally
semantics makes create settle with the teardown error, masking the original
generation error — contradicting the spec's propagation policy that teardown
failures must not mask the original error. -/
theorem teardown_error_masks_generation_error :
    (create { printOk := false, closeTabOk := false } "<h1>hi</h1>" {}).2
        = .error (.transport .closeTab)
    ∧ (create { printOk := false, closeTabOk := false } "<h1>hi</h1>" {}).2
        ≠ .error (.transport .printToPDF) := by
  constructor
  · rfl
  · decide

/-- C8 counterexample: the caller supplies a port of 0 — the port field is
present, so per the claim a remote target is supplied and no process should be
launched — yet the truthiness test `!myOptions.host && !myOptions.port`
(src/index.ts line 38) treats the 0 as absent and create launches Chrome. -/
theorem present_port_zero_still_launches :
    ({ port := some 0 } : CreateOptions).port ≠ none
    ∧ Ev.launchChrome ∈ (create {} "x" { port := some 0 }).1.trace := by
  constructor
  · decide
  · decide

/-- C3 counterexample: the configured trigger's wait resolves with an outcome
carrying exceptionDetails and the message boom, but the timer fired while the
wait was pending; the guard between inspecting the outcome and throwing the
evaluation error observes the flag, so create rejects with the Timeout error
and not with an error carrying the remote exception's message. -/
theorem evaluation_failure_can_reject_timeout :
    Ev.triggerWait ∈
      (create { fireAfter := 6,
                waitRes := .resolved (some { exceptionDetails := true, resultValue := "boom" }) }
          "x" { timeout := some 10, completionTrigger := true }).1.trace
    ∧ (create { fireAfter := 6,
                waitRes := .resolved (some { exceptionDetails := true, resultValue := "boom" }) }
          "x" { timeout := some 10, completionTrigger := true }).2 = .error .timeout := by
  constructor
  · decide
  · rfl

/-- C10: whenever afterNavigate is entered with a configured trigger whose
wait resolves to an outcome carrying exceptionDetails, and the armed timer has
fired by the time that outcome is inspected (it fires no later than the
wait's own await boundary), afterNavigate rejects with the Timeout error —
cancellation takes precedence over the evaluation error. -/
theorem cancellation_precedes_evaluation_error
    (env : Env) (s : S) (w : WaitOutcome)
    (htrig : s.myOpts.completionTrigger = true)
    (hres : env.waitRes = .resolved (some w))
    (hexc : w.exceptionDetails = true)
    (harm : timeoutArmed s.myOpts.timeout = true)
    (hfire : env.fireAfter ≤ s.steps) :
    (afterNavigate env s).2 = .error .timeout := by
  unfold afterNavigate andThen throwIfCanceled tick record
  by_cases hc : s.myOpts._canceled
  · simp [htrig, hc]
  · simp [htrig, hc, hres, hexc, harm, Nat.lt_succ_of_le hfire]

/-- Closed instance of `cancellation_precedes_evaluation_error`. -/
theorem cancellation_precedes_evaluation_error_witness :
    (afterNavigate
        { fireAfter := 3, waitRes := .resolved (some { exceptionDetails := true, resultValue := "boom" }) }
        { steps := 5, trace := [], navigatedUrl := none, callerOpts := {},
          myOpts := { completionTrigger := true, timeout := some 10 } }).2
      = .error .timeout :=
  cancellation_precedes_evaluation_error _ _
    { exceptionDetails := true, resultValue := "boom" } rfl rfl rfl rfl (by norm_num)


/- ## Control-flow equations -/

theorem andThen_ok {α : Type} {r : S × Except PdfError Unit} {k : S → S × Except PdfError α}
    (h : r.2 = .ok ()) : andThen r k = k r.1 := by
  rcases r with ⟨s1, r1⟩
  simp only at h
  subst h
  rfl

theorem andThen_err {α : Type} {r : S × Except PdfError Unit} {k : S → S × Except PdfError α}
    {e : PdfError} (h : r.2 = .error e) : andThen r k = (r.1, .error e) := by
  rcases r with ⟨s1, r1⟩
  simp only at h
  subst h
  rfl

theorem andThen_pure_ok {α : Type} (s : S) (k : S → S × Except PdfError α) :
    andThen (s, .ok ()) k = k s := rfl

theorem andThen_pure_err {α : Type} (s : S) (e : PdfError) (k : S → S × Except PdfError α) :
    andThen (s, .error e) k = (s, .error e) := rfl

theorem tryFinallyM_eq {α : Type} (body : S → S × Except PdfError α)
    (fin : S → S × Except PdfError Unit) (s : S) :
    tryFinallyM body fin s =
      ((fin (body s).1).1,
        match (fin (body s).1).2 with
        | .ok _ => (body s).2
        | .error e => .error e) := by
  unfold tryFinallyM
  rcases hb : body s with ⟨s1, r⟩
  simp only [hb]
  rcases hf : fin s1 with ⟨s2, fr⟩
  simp only [hf]
  cases fr <;> rfl

theorem tryFinallyM_fin_ok {α : Type} {body : S → S × Except PdfError α}
    {fin : S → S × Except PdfError Unit} {s : S}
    (h : (fin (body s).1).2 = .ok ()) :
    tryFinallyM body fin s = ((fin (body s).1).1, (body s).2) := by
  rw [tryFinallyM_eq, h]

theorem tryFinallyM_fin_err {α : Type} {body : S → S × Except PdfError α}
    {fin : S → S × Except PdfError Unit} {s : S} {e : PdfError}
    (h : (fin (body s).1).2 = .error e) :
    tryFinallyM body fin s = ((fin (body s).1).1, .error e) := by
  rw [tryFinallyM_eq, h]

theorem throwIfCanceled_pass {s : S} (h : s.myOpts._canceled = false) :
    throwIfCanceled s = (s, .ok ()) := by
  unfold throwIfCanceled
  rw [h]
  rfl

theorem throwIfCanceled_trip {s : S} (h : s.myOpts._canceled = true) :
    throwIfCanceled s = (record .guardTrip s, .error .timeout) := by
  unfold throwIfCanceled
  rw [h]
  rfl

theorem tick_trace (env : Env) (s : S) : (tick env s).trace = s.trace := by
  unfold tick
  split <;> rfl

theorem tick_callerOpts (env : Env) (s : S) : (tick env s).callerOpts = s.callerOpts := by
  unfold tick
  split <;> rfl

theorem tick_myOpts_timeout (env : Env) (s : S) :
    (tick env s).myOpts.timeout = s.myOpts.timeout := by
  unfold tick
  split <;> rfl

/- ## List decomposition helpers -/

/-- Splitting a concatenation at a distinguished element: the element lies in
the left or in the right part, and the decomposition splits accordingly. -/
theorem split_append {w : Ev} {t1 t2 P R : List Ev} (h : t1 ++ t2 = P ++ w :: R) :
    (∃ R', t1 = P ++ w :: R' ∧ R = R' ++ t2) ∨ (∃ P', t2 = P' ++ w :: R ∧ P = t1 ++ P') := by
  rcases List.append_eq_append_iff.mp h with ⟨a', h1, h2⟩ | ⟨c', h1, h2⟩
  · exact Or.inr ⟨a', h2, h1⟩
  · cases c' with
    | nil =>
      refine Or.inr ⟨[], ?_, by simpa using h1.symm⟩
      simpa using h2.symm
    | cons x c'' =>
      simp only [List.cons_append] at h2
      obtain ⟨hx, hR⟩ := List.cons_eq_cons.mp h2
      refine Or.inl ⟨c'', ?_, hR⟩
      rw [h1, hx]

/-- A decomposition of a concatenation at an element absent from the left part
lies in the right part. -/
theorem split_in_right {w : Ev} {t1 t2 P R : List Ev} (h : t1 ++ t2 = P ++ w :: R)
    (hw : w ∉ t1) : ∃ P', t2 = P' ++ w :: R ∧ P = t1 ++ P' := by
  rcases split_append h with ⟨R', h1, -⟩ | hr
  · refine absurd ?_ hw
    rw [h1]
    exact List.mem_append_right P (List.mem_cons_self w R')
  · exact hr

/- ## Chunk: what one component contributes to a run -/

/-- Events a finalizer can contribute: the unawaited client.close, the awaited
CDP.Close and the awaited chrome.kill. -/
def finEvs : List Ev := [Ev.clientClose, Ev.closeTab, Ev.kill]

/-- A computation `r`, started at `s`, extends the trace by events from `A`;
contributes no guard trip when it succeeds; after any guard trip it records
only finalizer events; and never touches the caller's options object. -/
def Chunk {α : Type} (A : List Ev) (r : S × Except PdfError α) (s : S) : Prop :=
  ∃ Δ, r.1.trace = s.trace ++ Δ ∧ (∀ e ∈ Δ, e ∈ A) ∧
    (∀ x, r.2 = .ok x → Ev.guardTrip ∉ Δ) ∧
    (∀ P R, Δ = P ++ Ev.guardTrip :: R → ∀ e ∈ R, e ∈ finEvs) ∧
    r.1.callerOpts = s.callerOpts

theorem chunk_mono {α : Type} {A B : List Ev} (hAB : ∀ e ∈ A, e ∈ B)
    {r : S × Except PdfError α} {s : S} (h : Chunk A r s) : Chunk B r s := by
  obtain ⟨Δ, h1, h2, h3, h4, h5⟩ := h
  exact ⟨Δ, h1, fun e he => hAB e (h2 e he), h3, h4, h5⟩

theorem chunk_pure {α : Type} {A : List Ev} {s : S} {x : Except PdfError α} :
    Chunk A (s, x) s := by
  refine ⟨[], by simp, by simp, fun _ _ => by simp, fun P R hPR => ?_, rfl⟩
  exact absurd hPR (by simp)

/-- A one-element chunk whose event is not a guard trip. -/
theorem chunk_single {α : Type} {A : List Ev} (e : Ev) {s1 s : S} {x : Except PdfError α}
    (hA : e ∈ A) (he : e ≠ Ev.guardTrip)
    (htr : s1.trace = s.trace ++ [e]) (hco : s1.callerOpts = s.callerOpts) :
    Chunk A (s1, x) s := by
  refine ⟨[e], htr, by simpa using hA, fun _ _ => by simpa using (Ne.symm he),
    fun P R hPR => ?_, hco⟩
  exfalso
  cases P with
  | nil =>
    simp only [List.nil_append] at hPR
    obtain ⟨h1, -⟩ := List.cons_eq_cons.mp hPR
    exact he h1
  | cons y P' =>
    simp only [List.cons_append] at hPR
    obtain ⟨-, h2⟩ := List.cons_eq_cons.mp hPR
    simp at h2

theorem chunk_guard {A : List Ev} (hA : Ev.guardTrip ∈ A) (s : S) :
    Chunk A (throwIfCanceled s) s := by
  unfold throwIfCanceled
  split
  · refine ⟨[Ev.guardTrip], by simp [record], by simpa using hA,
      fun x hx => by simp at hx, fun P R hPR => ?_, rfl⟩
    cases P with
    | nil =>
      simp only [List.nil_append] at hPR
      obtain ⟨-, h2⟩ := List.cons_eq_cons.mp hPR
      subst h2
      simp
    | cons y P' =>
      simp only [List.cons_append] at hPR
      obtain ⟨-, h2⟩ := List.cons_eq_cons.mp hPR
      simp at h2
  · exact chunk_pure

theorem chunk_ioStep {A : List Ev} {e : Ev} {env : Env} {ok : Bool} {op : Op} {s : S}
    (hA : e ∈ A) (he : e ≠ Ev.guardTrip) : Chunk A (ioStep env e ok op s) s := by
  unfold ioStep
  exact chunk_single e hA he (by simp [tick_trace, record]) (by simp [tick_callerOpts, record])

theorem chunk_tickRecord {α : Type} {A : List Ev} {e : Ev} {env : Env} {s : S}
    {x : Except PdfError α} (hA : e ∈ A) (he : e ≠ Ev.guardTrip) :
    Chunk A (tick env (record e s), x) s :=
  chunk_single e hA he (by simp [tick_trace, record]) (by simp [tick_callerOpts, record])

theorem chunk_record {α : Type} {A : List Ev} {e : Ev} {s : S} {x : Except PdfError α}
    (hA : e ∈ A) (he : e ≠ Ev.guardTrip) : Chunk A (record e s, x) s :=
  chunk_single e hA he (by simp [record]) rfl

/-- Lift a chunk across an already-performed non-trip extension of the state. -/
theorem chunk_shift {α : Type} {A : List Ev} {r : S × Except PdfError α} {s0 s1 : S}
    (Δ0 : List Ev)
    (he : s1.trace = s0.trace ++ Δ0) (hm : ∀ e ∈ Δ0, e ∈ A)
    (hg : Ev.guardTrip ∉ Δ0) (hco : s1.callerOpts = s0.callerOpts)
    (h : Chunk A r s1) : Chunk A r s0 := by
  obtain ⟨Δ, h1, h2, h3, h4, h5⟩ := h
  refine ⟨Δ0 ++ Δ, by rw [h1, he, List.append_assoc], ?_, ?_, ?_, h5.trans hco⟩
  · intro e hh
    rcases List.mem_append.mp hh with h' | h'
    · exact hm e h'
    · exact h2 e h'
  · intro x hx
    simp only [List.mem_append]
    rintro (h' | h')
    · exact hg h'
    · exact h3 x hx h'
  · intro P R hPR
    rcases split_in_right hPR hg with ⟨P', hP1, -⟩
    exact h4 P' R hP1

/-- Lift a chunk across one already-performed await with its recorded event. -/
theorem chunk_shift_tickRecord {α : Type} {A : List Ev} (e : Ev) {env : Env} {s : S}
    {r : S × Except PdfError α}
    (hA : e ∈ A) (he : e ≠ Ev.guardTrip)
    (h : Chunk A r (tick env (record e s))) : Chunk A r s :=
  chunk_shift [e] (by simp [tick_trace, record]) (by simpa using hA)
    (by simpa using (Ne.symm he)) (by simp [tick_callerOpts, record]) h

theorem chunk_andThen {α : Type} {A : List Ev} {r : S × Except PdfError Unit}
    {k : S → S × Except PdfError α} {s : S}
    (h1 : Chunk A r s) (h2 : ∀ s', Chunk A (k s') s') :
    Chunk A (andThen r k) s := by
  rcases hr : r.2 with e | x
  · rw [andThen_err hr]
    obtain ⟨Δ1, he1, hm1, hok1, htl1, hco1⟩ := h1
    exact ⟨Δ1, he1, hm1, fun x hx => by simp at hx, htl1, hco1⟩
  · cases x
    rw [andThen_ok hr]
    obtain ⟨Δ1, he1, hm1, hok1, htl1, hco1⟩ := h1
    exact chunk_shift Δ1 he1 hm1 (hok1 () hr) hco1 (h2 r.1)

/-- What a finalizer contributes: only events from `F`, and it leaves the
caller's options object alone. -/
def FinChunk (F : List Ev) (fin : S → S × Except PdfError Unit) : Prop :=
  ∀ s', ∃ Δ, (fin s').1.trace = s'.trace ++ Δ ∧ (∀ e ∈ Δ, e ∈ F) ∧
    (fin s').1.callerOpts = s'.callerOpts

theorem chunk_tryFinally {α : Type} {A F : List Ev} {body : S → S × Except PdfError α}
    {fin : S → S × Except PdfError Unit} {s : S}
    (hb : Chunk A (body s) s) (hf : FinChunk F fin)
    (hFfin : ∀ e ∈ F, e ∈ finEvs) (hAf : ∀ e ∈ F, e ∈ A) :
    Chunk A (tryFinallyM body fin s) s := by
  obtain ⟨Δ1, he1, hm1, hok1, htl1, hco1⟩ := hb
  obtain ⟨Δ2, he2, hm2', hco2⟩ := hf (body s).1
  have hm2 : ∀ e ∈ Δ2, e ∈ finEvs := fun e he => hFfin e (hm2' e he)
  have hg2 : Ev.guardTrip ∉ Δ2 := by
    intro h
    have := hm2 _ h
    simp [finEvs] at this
  have htr : (fin (body s).1).1.trace = s.trace ++ (Δ1 ++ Δ2) := by
    rw [he2, he1, List.append_assoc]
  have hmem : ∀ e ∈ Δ1 ++ Δ2, e ∈ A := by
    intro e hh
    rcases List.mem_append.mp hh with h' | h'
    · exact hm1 e h'
    · exact hAf e (hm2' e h')
  have htail : ∀ P R, Δ1 ++ Δ2 = P ++ Ev.guardTrip :: R → ∀ e ∈ R, e ∈ finEvs := by
    intro P R hPR
    rcases split_append hPR with ⟨R', hL1, hL2⟩ | ⟨P', hR1, -⟩
    · intro e hh
      rw [hL2] at hh
      rcases List.mem_append.mp hh with h' | h'
      · exact htl1 P R' hL1 e h'
      · exact hm2 e h'
    · refine absurd ?_ hg2
      rw [hR1]
      exact List.mem_append_right P' (List.mem_cons_self _ R)
  have hcal : (fin (body s).1).1.callerOpts = s.callerOpts := hco2.trans hco1
  rcases hfr : (fin (body s).1).2 with e | u
  · rw [tryFinallyM_fin_err hfr]
    refine ⟨Δ1 ++ Δ2, htr, hmem, ?_, htail, hcal⟩
    intro x hx
    simp at hx
  · cases u
    rw [tryFinallyM_fin_ok hfr]
    refine ⟨Δ1 ++ Δ2, htr, hmem, ?_, htail, hcal⟩
    intro x hx
    simp only at hx
    simp only [List.mem_append]
    rintro (h' | h')
    · exact hok1 x hx h'
    · exact hg2 h'

/- ## Component chunks -/

def beforeEvs : List Ev :=
  [Ev.guardTrip, Ev.clearCacheEv, Ev.enableEvents, Ev.consoleSub, Ev.exceptionSub, Ev.setCookies]

theorem beforeNavigate_chunk (env : Env) (s : S) : Chunk beforeEvs (beforeNavigate env s) s := by
  unfold beforeNavigate
  apply chunk_andThen (chunk_guard (by decide) s)
  intro s1
  dsimp only
  apply chunk_andThen
  · split
    · exact chunk_ioStep (by decide) (by decide)
    · exact chunk_pure
  intro s2
  apply chunk_andThen (chunk_ioStep (by decide) (by decide))
  intro s3
  dsimp only
  apply chunk_andThen
  · split
    · apply chunk_andThen (chunk_guard (by decide) s3)
      intro s4
      exact chunk_record (by decide) (by decide)
    · exact chunk_pure
  intro s4
  dsimp only
  apply chunk_andThen
  · split
    · apply chunk_andThen (chunk_guard (by decide) s4)
      intro s5
      exact chunk_record (by decide) (by decide)
    · exact chunk_pure
  intro s5
  dsimp only
  apply chunk_andThen
  · split
    · apply chunk_andThen (chunk_guard (by decide) s5)
      intro s6
      exact chunk_ioStep (by decide) (by decide)
    · exact chunk_pure
  intro s6
  exact chunk_guard (by decide) s6

theorem navLoadJoin_chunk (env : Env) (url : String) (s : S) :
    Chunk [Ev.navigate, Ev.loadEvent] (navLoadJoin env url s) s := by
  unfold navLoadJoin
  dsimp only
  split
  · refine chunk_shift [] (by simp) (by simp) (by simp) rfl ?_
    apply chunk_andThen (chunk_ioStep (by decide) (by decide))
    intro s1
    exact chunk_ioStep (by decide) (by decide)
  · refine chunk_shift [] (by simp) (by simp) (by simp) rfl ?_
    apply chunk_andThen (chunk_ioStep (by decide) (by decide))
    intro s1
    exact chunk_ioStep (by decide) (by decide)

def afterEvs : List Ev := [Ev.guardTrip, Ev.triggerWait]

theorem afterNavigate_chunk (env : Env) (s : S) : Chunk afterEvs (afterNavigate env s) s := by
  unfold afterNavigate
  apply chunk_andThen
  · split
    · apply chunk_andThen (chunk_guard (by decide) s)
      intro s1
      dsimp only
      split
      · exact chunk_tickRecord (by decide) (by decide)
      · exact chunk_tickRecord (by decide) (by decide)
      · split
        · apply chunk_shift_tickRecord Ev.triggerWait (by decide) (by decide)
          apply chunk_andThen (chunk_guard (by decide) _)
          intro s2
          exact chunk_pure
        · exact chunk_tickRecord (by decide) (by decide)
    · exact chunk_pure
  intro s'
  exact chunk_guard (by decide) s'

def genEvs : List Ev :=
  [Ev.guardTrip, Ev.connect, Ev.clearCacheEv, Ev.enableEvents, Ev.consoleSub, Ev.exceptionSub,
   Ev.setCookies, Ev.navigate, Ev.loadEvent, Ev.triggerWait, Ev.printToPDF, Ev.clientClose]

theorem fin_clientClose_chunk :
    FinChunk [Ev.clientClose] (fun s => (record .clientClose s, .ok ())) := by
  intro s'
  exact ⟨[Ev.clientClose], by simp [record], by simp, rfl⟩

theorem generate_chunk (env : Env) (html : String) (s : S) :
    Chunk genEvs (generate env html s) s := by
  unfold generate
  apply chunk_andThen (chunk_guard (by decide) s)
  intro s1
  apply chunk_andThen (chunk_ioStep (by decide) (by decide))
  intro s2
  apply chunk_tryFinally ?_ fin_clientClose_chunk (by decide) (by decide)
  apply chunk_andThen (chunk_mono (by decide) (beforeNavigate_chunk env s2))
  intro s3
  apply chunk_andThen (chunk_mono (by decide) (navLoadJoin_chunk env (navigationUrl html) s3))
  intro s4
  apply chunk_andThen (chunk_mono (by decide) (afterNavigate_chunk env s4))
  intro s5
  apply chunk_andThen (chunk_ioStep (by decide) (by decide))
  intro s6
  apply chunk_andThen (chunk_guard (by decide) s6)
  intro s7
  exact chunk_pure

def tabEvs : List Ev := Ev.newTab :: Ev.closeTab :: genEvs

theorem fin_ioStep_chunk (env : Env) (e : Ev) (ok : Bool) (op : Op) :
    FinChunk [e] (fun s => ioStep env e ok op s) := by
  intro s'
  exact ⟨[e], by simp [ioStep, tick_trace, record], by simp,
    by simp [ioStep, tick_callerOpts, record]⟩

theorem tabAndGenerate_chunk (env : Env) (html : String) (s : S) :
    Chunk tabEvs (tabAndGenerate env html s) s := by
  unfold tabAndGenerate
  apply chunk_andThen (chunk_ioStep (by decide) (by decide))
  intro s1
  apply chunk_tryFinally (chunk_mono (by decide) (generate_chunk env html s1))
    (fin_ioStep_chunk env .closeTab env.closeTabOk .closeTab) (by decide) (by decide)

def allEvs : List Ev := Ev.launchChrome :: Ev.kill :: tabEvs

theorem launchChrome_chunk (env : Env) (s : S) : Chunk allEvs (launchChrome env s) s := by
  unfold launchChrome
  dsimp only
  cases env.launchRes with
  | none => exact chunk_tickRecord (by decide) (by decide)
  | some p =>
    exact chunk_single Ev.launchChrome (by decide) (by decide)
      (by simp [tick_trace, record]) (by simp [tick_callerOpts, record])


theorem create_chunk (env : Env) (html : String) (opts : CreateOptions) :
    Chunk allEvs (create env html opts) (initS opts) := by
  unfold create
  apply chunk_andThen (chunk_guard (by decide) (initS opts))
  intro s1
  dsimp only
  split
  · exact chunk_mono (by decide) (tabAndGenerate_chunk env html s1)
  · apply chunk_andThen (chunk_guard (by decide) s1)
    intro s2
    apply chunk_andThen (launchChrome_chunk env s2)
    intro s3
    apply chunk_tryFinally (chunk_mono (by decide) (tabAndGenerate_chunk env html s3))
      (fin_ioStep_chunk env .kill env.killOk .kill) (by decide) (by decide)

/-- C9: create never mutates the caller-supplied options object.  The state
tracks the caller's object and the copy `Object.assign({}, options)` made at
entry separately; every write of the source (the cancellation-flag reset, the
timer's flag set, the port rewrite after a local launch) goes to the copy, so
the caller's object is unchanged whenever create settles, on every path. -/
theorem create_never_mutates_caller_options (env : Env) (html : String) (opts : CreateOptions) :
    (create env html opts).1.callerOpts = opts := by
  obtain ⟨Δ, h1, h2, h3, h4, h5⟩ := create_chunk env html opts
  simpa [initS] using h5


/- ## Branch equations for create -/

theorem tryFinallyM_fst {α : Type} (body : S → S × Except PdfError α)
    (fin : S → S × Except PdfError Unit) (s : S) :
    (tryFinallyM body fin s).1 = (fin (body s).1).1 := by
  rw [tryFinallyM_eq]

theorem ioStep_trace (env : Env) (e : Ev) (ok : Bool) (op : Op) (s : S) :
    (ioStep env e ok op s).1.trace = s.trace ++ [e] := by
  simp [ioStep, tick_trace, record]

theorem ioStep_snd_ok {env : Env} {e : Ev} {ok : Bool} {op : Op} {s : S} (h : ok = true) :
    (ioStep env e ok op s).2 = .ok () := by
  simp [ioStep, h]

theorem ioStep_snd_fail {env : Env} {e : Ev} {ok : Bool} {op : Op} {s : S} (h : ok = false) :
    (ioStep env e ok op s).2 = .error (.transport op) := by
  simp [ioStep, h]

theorem launchChrome_trace (env : Env) (s : S) :
    (launchChrome env s).1.trace = s.trace ++ [Ev.launchChrome] := by
  unfold launchChrome
  cases env.launchRes <;> simp [tick_trace, record]

theorem launchChrome_snd_ok {env : Env} {s : S} {p : Nat} (h : env.launchRes = some p) :
    (launchChrome env s).2 = .ok () := by
  unfold launchChrome
  rw [h]

theorem launchChrome_snd_fail {env : Env} {s : S} (h : env.launchRes = none) :
    (launchChrome env s).2 = .error (.transport .launch) := by
  unfold launchChrome
  rw [h]

theorem create_eq_target (env : Env) (html : String) (opts : CreateOptions)
    (h : (truthyStr opts.host || truthyNat opts.port) = true) :
    create env html opts = tabAndGenerate env html (initS opts) := by
  unfold create
  rw [throwIfCanceled_pass rfl, andThen_ok rfl]
  have hc : (truthyStr (initS opts).myOpts.host || truthyNat (initS opts).myOpts.port)
      = true := h
  simp only [hc, if_true]

theorem create_eq_launch (env : Env) (html : String) (opts : CreateOptions)
    (h : (truthyStr opts.host || truthyNat opts.port) = false) :
    create env html opts =
      andThen (launchChrome env (initS opts)) fun s =>
        tryFinallyM (tabAndGenerate env html)
          (fun s' => ioStep env .kill env.killOk .kill s') s := by
  unfold create
  rw [throwIfCanceled_pass rfl, andThen_ok rfl]
  have hc : (truthyStr (initS opts).myOpts.host || truthyNat (initS opts).myOpts.port)
      = false := h
  simp only [hc, if_false, Bool.false_eq_true]
  rw [throwIfCanceled_pass rfl, andThen_ok rfl]

theorem tabAndGenerate_tabFail {env : Env} (html : String) {s : S}
    (hN : env.newTabOk = false) :
    tabAndGenerate env html s = (tick env (record .newTab s), .error (.transport .newTab)) := by
  unfold tabAndGenerate
  have h : (ioStep env .newTab env.newTabOk .newTab s).2 = .error (.transport .newTab) :=
    ioStep_snd_fail hN
  rw [andThen_err h]
  unfold ioStep
  rfl

theorem tabAndGenerate_tabOk {env : Env} (html : String) {s : S}
    (hN : env.newTabOk = true) :
    tabAndGenerate env html s =
      tryFinallyM (generate env html)
        (fun s' => ioStep env .closeTab env.closeTabOk .closeTab s')
        (tick env (record .newTab s)) := by
  unfold tabAndGenerate
  rw [andThen_ok (ioStep_snd_ok hN)]
  rfl

/- ## Shape of the trace around the trigger wait (for the join-before-wait claim) -/

/-- Either the chunk never invoked the trigger wait, or it decomposes at the
(unique) wait event with the navigate and load settlements already before it. -/
def WaitShape (Δ : List Ev) : Prop :=
  Ev.triggerWait ∉ Δ ∨ ∃ P R, Δ = P ++ Ev.triggerWait :: R ∧
    Ev.navigate ∈ P ∧ Ev.loadEvent ∈ P ∧ Ev.triggerWait ∉ P ∧ Ev.triggerWait ∉ R

theorem waitShape_of_not_mem {Δ : List Ev} (h : Ev.triggerWait ∉ Δ) : WaitShape Δ :=
  Or.inl h

theorem waitShape_assemble {Δpre Δa Δpost : List Ev}
    (hpre : Ev.triggerWait ∉ Δpre) (hpost : Ev.triggerWait ∉ Δpost)
    (hshape : Ev.triggerWait ∉ Δa ∨ ∃ R, Δa = Ev.triggerWait :: R ∧ Ev.triggerWait ∉ R)
    (hnav : Ev.triggerWait ∈ Δa → Ev.navigate ∈ Δpre ∧ Ev.loadEvent ∈ Δpre) :
    WaitShape (Δpre ++ Δa ++ Δpost) := by
  rcases hshape with hno | ⟨R, hH, hR⟩
  · refine Or.inl ?_
    simp only [List.mem_append]
    rintro ((h | h) | h)
    · exact hpre h
    · exact hno h
    · exact hpost h
  · subst hH
    obtain ⟨hn, hl⟩ := hnav (List.mem_cons_self _ _)
    refine Or.inr ⟨Δpre, R ++ Δpost, ?_, hn, hl, hpre, ?_⟩
    · simp
    · simp only [List.mem_append]
      rintro (h | h)
      · exact hR h
      · exact hpost h

/-- All possible outcomes of the navigate/load join: it resolves having
recorded both settlements (in either order), or it rejects. -/
theorem navLoadJoin_cases (env : Env) (url : String) (s : S) :
    ((navLoadJoin env url s).2 = .ok () ∧
      ((navLoadJoin env url s).1.trace = s.trace ++ [Ev.navigate, Ev.loadEvent]
        ∨ (navLoadJoin env url s).1.trace = s.trace ++ [Ev.loadEvent, Ev.navigate]))
    ∨ (∃ e, (navLoadJoin env url s).2 = .error e) := by
  unfold navLoadJoin
  dsimp only
  split
  · cases hno : env.navigateOk with
    | false =>
      rw [andThen_err (ioStep_snd_fail rfl)]
      exact Or.inr ⟨_, rfl⟩
    | true =>
      rw [andThen_ok (ioStep_snd_ok rfl)]
      cases hlo : env.loadEventOk with
      | false => exact Or.inr ⟨_, ioStep_snd_fail rfl⟩
      | true =>
        refine Or.inl ⟨ioStep_snd_ok rfl, Or.inl ?_⟩
        rw [ioStep_trace, ioStep_trace]
        simp [record]
  · cases hlo : env.loadEventOk with
    | false =>
      rw [andThen_err (ioStep_snd_fail rfl)]
      exact Or.inr ⟨_, rfl⟩
    | true =>
      rw [andThen_ok (ioStep_snd_ok rfl)]
      cases hno : env.navigateOk with
      | false => exact Or.inr ⟨_, ioStep_snd_fail rfl⟩
      | true =>
        refine Or.inl ⟨ioStep_snd_ok rfl, Or.inr ?_⟩
        rw [ioStep_trace, ioStep_trace]
        simp [record]

/-- The wait event, when afterNavigate records one, opens its contribution:
everything the component adds after it is guard bookkeeping, never a second
wait. -/
theorem afterNavigate_tw (env : Env) (s : S) :
    ∃ Δ, (afterNavigate env s).1.trace = s.trace ++ Δ ∧
      (Ev.triggerWait ∉ Δ ∨ ∃ R, Δ = Ev.triggerWait :: R ∧ Ev.triggerWait ∉ R) := by
  unfold afterNavigate
  split
  · by_cases hc : s.myOpts._canceled = true
    · rw [throwIfCanceled_trip hc, andThen_pure_err, andThen_pure_err]
      exact ⟨[Ev.guardTrip], by simp [record], Or.inl (by decide)⟩
    · have hc' : s.myOpts._canceled = false := by simpa using hc
      rw [throwIfCanceled_pass hc', andThen_pure_ok]
      dsimp only
      split
      · rw [andThen_pure_err]
        exact ⟨[Ev.triggerWait], by simp [tick_trace, record],
          Or.inr ⟨[], rfl, by decide⟩⟩
      · rw [andThen_pure_ok]
        by_cases hc1 : (tick env (record .triggerWait s)).myOpts._canceled = true
        · rw [throwIfCanceled_trip hc1]
          exact ⟨[Ev.triggerWait, Ev.guardTrip], by simp [record, tick_trace],
            Or.inr ⟨[Ev.guardTrip], rfl, by decide⟩⟩
        · have hc1' : (tick env (record .triggerWait s)).myOpts._canceled = false := by
            simpa using hc1
          rw [throwIfCanceled_pass hc1']
          exact ⟨[Ev.triggerWait], by simp [tick_trace, record],
            Or.inr ⟨[], rfl, by decide⟩⟩
      · split
        · by_cases hc1 : (tick env (record .triggerWait s)).myOpts._canceled = true
          · rw [throwIfCanceled_trip hc1, andThen_pure_err, andThen_pure_err]
            exact ⟨[Ev.triggerWait, Ev.guardTrip], by simp [record, tick_trace],
              Or.inr ⟨[Ev.guardTrip], rfl, by decide⟩⟩
          · have hc1' : (tick env (record .triggerWait s)).myOpts._canceled = false := by
              simpa using hc1
            rw [throwIfCanceled_pass hc1', andThen_pure_ok, andThen_pure_err]
            exact ⟨[Ev.triggerWait], by simp [tick_trace, record],
              Or.inr ⟨[], rfl, by decide⟩⟩
        · rw [andThen_pure_ok]
          by_cases hc1 : (tick env (record .triggerWait s)).myOpts._canceled = true
          · rw [throwIfCanceled_trip hc1]
            exact ⟨[Ev.triggerWait, Ev.guardTrip], by simp [record, tick_trace],
              Or.inr ⟨[Ev.guardTrip], rfl, by decide⟩⟩
          · have hc1' : (tick env (record .triggerWait s)).myOpts._canceled = false := by
              simpa using hc1
            rw [throwIfCanceled_pass hc1']
            exact ⟨[Ev.triggerWait], by simp [tick_trace, record],
              Or.inr ⟨[], rfl, by decide⟩⟩
  · rw [andThen_pure_ok]
    by_cases hc : s.myOpts._canceled = true
    · rw [throwIfCanceled_trip hc]
      exact ⟨[Ev.guardTrip], by simp [record], Or.inl (by decide)⟩
    · have hc' : s.myOpts._canceled = false := by simpa using hc
      rw [throwIfCanceled_pass hc']
      exact ⟨[], by simp, Or.inl (by decide)⟩

/-- The navigate/load settlements precede the trigger wait inside generate:
its contribution decomposes at the wait event (when one occurs) with both
settlements already recorded before it. -/
theorem generate_tw_shape (env : Env) (html : String) (s : S) :
    ∃ Δ, (generate env html s).1.trace = s.trace ++ Δ ∧ WaitShape Δ := by
  unfold generate
  by_cases hc : s.myOpts._canceled = true
  · rw [throwIfCanceled_trip hc, andThen_pure_err]
    exact ⟨[Ev.guardTrip], by simp [record], waitShape_of_not_mem (by decide)⟩
  · have hc' : s.myOpts._canceled = false := by simpa using hc
    rw [throwIfCanceled_pass hc', andThen_pure_ok]
    cases hcon : env.connectOk with
    | false =>
      rw [andThen_err (ioStep_snd_fail rfl)]
      exact ⟨[Ev.connect], by rw [ioStep_trace], waitShape_of_not_mem (by decide)⟩
    | true =>
      rw [andThen_ok (ioStep_snd_ok rfl)]
      rw [tryFinallyM_fst]
      dsimp only
      have hs2 : (ioStep env Ev.connect true Op.connect s).1.trace
          = s.trace ++ [Ev.connect] := ioStep_trace ..
      obtain ⟨Δb, hbe, hbm, -, -, -⟩ :=
        beforeNavigate_chunk env (ioStep env Ev.connect true Op.connect s).1
      have hbtw : Ev.triggerWait ∉ Δb := fun hmem => by
        have := hbm _ hmem
        simp [beforeEvs] at this
      rcases hbr : (beforeNavigate env (ioStep env Ev.connect true Op.connect s).1).2
        with e | u
      · rw [andThen_err hbr]
        refine ⟨[Ev.connect] ++ Δb ++ [Ev.clientClose], ?_, waitShape_of_not_mem ?_⟩
        · simp [record, hbe, hs2]
        · exact List.not_mem_append (List.not_mem_append (by decide) hbtw) (by decide)
      · cases u
        rw [andThen_ok hbr]
        obtain ⟨Δj, hje, hjm, -, -, -⟩ := navLoadJoin_chunk env (navigationUrl html)
          (beforeNavigate env (ioStep env Ev.connect true Op.connect s).1).1
        have hjtw : Ev.triggerWait ∉ Δj := fun hmem => by
          have := hjm _ hmem
          simp at this
        rcases navLoadJoin_cases env (navigationUrl html)
            (beforeNavigate env (ioStep env Ev.connect true Op.connect s).1).1
          with ⟨hjok, hjtr⟩ | ⟨e, hjerr⟩
        · rw [andThen_ok hjok]
          rcases hjtr with hJ | hJ
          all_goals (
            obtain ⟨Δa, hae, hashape⟩ := afterNavigate_tw env
              (navLoadJoin env (navigationUrl html)
                (beforeNavigate env (ioStep env Ev.connect true Op.connect s).1).1).1
            rcases har : (afterNavigate env
                (navLoadJoin env (navigationUrl html)
                  (beforeNavigate env (ioStep env Ev.connect true Op.connect s).1).1).1).2
              with e | u)
          ·
            rw [andThen_err har]
            refine ⟨([Ev.connect] ++ Δb ++ [Ev.navigate, Ev.loadEvent]) ++ Δa
              ++ [Ev.clientClose], ?_, ?_⟩
            · simp [record, hae, hJ, hbe, hs2]
            · refine waitShape_assemble
                (List.not_mem_append (List.not_mem_append (by decide) hbtw) (by decide))
                (by decide) hashape (fun _ => ⟨?_, ?_⟩) <;> simp
          ·
            cases u
            rw [andThen_ok har]
            cases hpr : env.printOk with
            | false =>
              rw [andThen_err (ioStep_snd_fail rfl)]
              refine ⟨([Ev.connect] ++ Δb ++ [Ev.navigate, Ev.loadEvent]) ++ Δa
                ++ ([Ev.printToPDF] ++ [Ev.clientClose]), ?_, ?_⟩
              · simp [record, ioStep_trace, hae, hJ, hbe, hs2]
              · refine waitShape_assemble
                  (List.not_mem_append (List.not_mem_append (by decide) hbtw) (by decide))
                  (by decide) hashape (fun _ => ⟨?_, ?_⟩) <;> simp
            | true =>
              rw [andThen_ok (ioStep_snd_ok rfl)]
              by_cases hc6 : (ioStep env Ev.printToPDF true Op.printToPDF
                  (afterNavigate env
                    (navLoadJoin env (navigationUrl html)
                      (beforeNavigate env
                        (ioStep env Ev.connect true Op.connect s).1).1).1).1).1.myOpts._canceled
                  = true
              · rw [throwIfCanceled_trip hc6, andThen_pure_err]
                refine ⟨([Ev.connect] ++ Δb ++ [Ev.navigate, Ev.loadEvent]) ++ Δa
                  ++ ([Ev.printToPDF, Ev.guardTrip] ++ [Ev.clientClose]), ?_, ?_⟩
                · simp [record, ioStep_trace, hae, hJ, hbe, hs2]
                · refine waitShape_assemble
                    (List.not_mem_append (List.not_mem_append (by decide) hbtw) (by decide))
                    (by decide) hashape (fun _ => ⟨?_, ?_⟩) <;> simp
              · have hc6' : (ioStep env Ev.printToPDF true Op.printToPDF
                    (afterNavigate env
                      (navLoadJoin env (navigationUrl html)
                        (beforeNavigate env
                          (ioStep env Ev.connect true Op.connect s).1).1).1).1).1.myOpts._canceled
                    = false := by simpa using hc6
                rw [throwIfCanceled_pass hc6', andThen_pure_ok]
                refine ⟨([Ev.connect] ++ Δb ++ [Ev.navigate, Ev.loadEvent]) ++ Δa
                  ++ ([Ev.printToPDF] ++ [Ev.clientClose]), ?_, ?_⟩
                · simp [record, ioStep_trace, hae, hJ, hbe, hs2]
                · refine waitShape_assemble
                    (List.not_mem_append (List.not_mem_append (by decide) hbtw) (by decide))
                    (by decide) hashape (fun _ => ⟨?_, ?_⟩) <;> simp
          ·
            rw [andThen_err har]
            refine ⟨([Ev.connect] ++ Δb ++ [Ev.loadEvent, Ev.navigate]) ++ Δa
              ++ [Ev.clientClose], ?_, ?_⟩
            · simp [record, hae, hJ, hbe, hs2]
            · refine waitShape_assemble
                (List.not_mem_append (List.not_mem_append (by decide) hbtw) (by decide))
                (by decide) hashape (fun _ => ⟨?_, ?_⟩) <;> simp
          ·
            cases u
            rw [andThen_ok har]
            cases hpr : env.printOk with
            | false =>
              rw [andThen_err (ioStep_snd_fail rfl)]
              refine ⟨([Ev.connect] ++ Δb ++ [Ev.loadEvent, Ev.navigate]) ++ Δa
                ++ ([Ev.printToPDF] ++ [Ev.clientClose]), ?_, ?_⟩
              · simp [record, ioStep_trace, hae, hJ, hbe, hs2]
              · refine waitShape_assemble
                  (List.not_mem_append (List.not_mem_append (by decide) hbtw) (by decide))
                  (by decide) hashape (fun _ => ⟨?_, ?_⟩) <;> simp
            | true =>
              rw [andThen_ok (ioStep_snd_ok rfl)]
              by_cases hc6 : (ioStep env Ev.printToPDF true Op.printToPDF
                  (afterNavigate env
                    (navLoadJoin env (navigationUrl html)
                      (beforeNavigate env
                        (ioStep env Ev.connect true Op.connect s).1).1).1).1).1.myOpts._canceled
                  = true
              · rw [throwIfCanceled_trip hc6, andThen_pure_err]
                refine ⟨([Ev.connect] ++ Δb ++ [Ev.loadEvent, Ev.navigate]) ++ Δa
                  ++ ([Ev.printToPDF, Ev.guardTrip] ++ [Ev.clientClose]), ?_, ?_⟩
                · simp [record, ioStep_trace, hae, hJ, hbe, hs2]
                · refine waitShape_assemble
                    (List.not_mem_append (List.not_mem_append (by decide) hbtw) (by decide))
                    (by decide) hashape (fun _ => ⟨?_, ?_⟩) <;> simp
              · have hc6' : (ioStep env Ev.printToPDF true Op.printToPDF
                    (afterNavigate env
                      (navLoadJoin env (navigationUrl html)
                        (beforeNavigate env
                          (ioStep env Ev.connect true Op.connect s).1).1).1).1).1.myOpts._canceled
                    = false := by simpa using hc6
                rw [throwIfCanceled_pass hc6', andThen_pure_ok]
                refine ⟨([Ev.connect] ++ Δb ++ [Ev.loadEvent, Ev.navigate]) ++ Δa
                  ++ ([Ev.printToPDF] ++ [Ev.clientClose]), ?_, ?_⟩
                · simp [record, ioStep_trace, hae, hJ, hbe, hs2]
                · refine waitShape_assemble
                    (List.not_mem_append (List.not_mem_append (by decide) hbtw) (by decide))
                    (by decide) hashape (fun _ => ⟨?_, ?_⟩) <;> simp
        · rw [andThen_err hjerr]
          refine ⟨[Ev.connect] ++ Δb ++ Δj ++ [Ev.clientClose], ?_, waitShape_of_not_mem ?_⟩
          · simp [record, hje, hbe, hs2]
          · exact List.not_mem_append
              (List.not_mem_append (List.not_mem_append (by decide) hbtw) hjtw) (by decide)

theorem generate_full (env : Env) (html : String) (s : S) :
    ∃ Δ, (generate env html s).1.trace = s.trace ++ Δ ∧
      (∀ e ∈ Δ, e ∈ genEvs) ∧ WaitShape Δ := by
  obtain ⟨Δ1, h1, hm, -, -, -⟩ := generate_chunk env html s
  obtain ⟨Δ2, h2, hs⟩ := generate_tw_shape env html s
  have hΔ : Δ1 = Δ2 := List.append_cancel_left (h1.symm.trans h2)
  subst hΔ
  exact ⟨Δ1, h1, hm, hs⟩

/-- Splitting a concatenation at an element absent from both named parts pins
the decomposition. -/
theorem decomp_unique {w : Ev} {P R pre post : List Ev}
    (hP : w ∉ P) (hR : w ∉ R)
    (h : P ++ w :: R = pre ++ w :: post) : pre = P ∧ post = R := by
  rcases split_append h with ⟨R', h1, -⟩ | ⟨P', h1, h2⟩
  · refine absurd ?_ hP
    rw [h1]
    exact List.mem_append_right pre (List.mem_cons_self w R')
  · cases P' with
    | nil =>
      simp only [List.nil_append] at h1
      obtain ⟨-, hpost⟩ := List.cons_eq_cons.mp h1
      simp only [List.append_nil] at h2
      exact ⟨h2, hpost.symm⟩
    | cons x P'' =>
      exfalso
      simp only [List.cons_append] at h1
      obtain ⟨hx, hRR⟩ := List.cons_eq_cons.mp h1
      refine hR ?_
      rw [hRR]
      exact List.mem_append_right P'' (List.mem_cons_self w post)

/- ## The five top-level runs of create -/

theorem create_run_launchFail (env : Env) (html : String) (opts : CreateOptions)
    (hT : (truthyStr opts.host || truthyNat opts.port) = false)
    (hL : env.launchRes = none) :
    (create env html opts).1.trace = [Ev.launchChrome] := by
  rw [create_eq_launch env html opts hT]
  rw [andThen_err (launchChrome_snd_fail hL)]
  simp [launchChrome_trace, initS]

theorem create_run_launched_tabFail (env : Env) (html : String) (opts : CreateOptions)
    {p : Nat}
    (hT : (truthyStr opts.host || truthyNat opts.port) = false)
    (hL : env.launchRes = some p) (hN : env.newTabOk = false) :
    (create env html opts).1.trace = [Ev.launchChrome, Ev.newTab, Ev.kill] := by
  rw [create_eq_launch env html opts hT]
  rw [andThen_ok (launchChrome_snd_ok hL), tryFinallyM_fst]
  rw [tabAndGenerate_tabFail html hN]
  simp [ioStep_trace, tick_trace, record, launchChrome_trace, initS]

theorem create_run_launched_ok (env : Env) (html : String) (opts : CreateOptions)
    {p : Nat}
    (hT : (truthyStr opts.host || truthyNat opts.port) = false)
    (hL : env.launchRes = some p) (hN : env.newTabOk = true) :
    ∃ Δ, (create env html opts).1.trace
        = [Ev.launchChrome, Ev.newTab] ++ Δ ++ [Ev.closeTab, Ev.kill]
      ∧ (∀ e ∈ Δ, e ∈ genEvs) ∧ WaitShape Δ := by
  rw [create_eq_launch env html opts hT]
  rw [andThen_ok (launchChrome_snd_ok hL), tryFinallyM_fst]
  rw [tabAndGenerate_tabOk html hN, tryFinallyM_fst]
  obtain ⟨Δ, hg, hm, hshape⟩ := generate_full env html
    (tick env (record .newTab (launchChrome env (initS opts)).1))
  refine ⟨Δ, ?_, hm, hshape⟩
  rw [ioStep_trace, ioStep_trace, hg]
  simp [tick_trace, record, launchChrome_trace, initS]

theorem create_run_target_tabFail (env : Env) (html : String) (opts : CreateOptions)
    (hT : (truthyStr opts.host || truthyNat opts.port) = true)
    (hN : env.newTabOk = false) :
    (create env html opts).1.trace = [Ev.newTab] := by
  rw [create_eq_target env html opts hT, tabAndGenerate_tabFail html hN]
  simp [tick_trace, record, initS]

theorem create_run_target_ok (env : Env) (html : String) (opts : CreateOptions)
    (hT : (truthyStr opts.host || truthyNat opts.port) = true)
    (hN : env.newTabOk = true) :
    ∃ Δ, (create env html opts).1.trace = [Ev.newTab] ++ Δ ++ [Ev.closeTab]
      ∧ (∀ e ∈ Δ, e ∈ genEvs) ∧ WaitShape Δ := by
  rw [create_eq_target env html opts hT, tabAndGenerate_tabOk html hN, tryFinallyM_fst]
  obtain ⟨Δ, hg, hm, hshape⟩ := generate_full env html (tick env (record .newTab (initS opts)))
  refine ⟨Δ, ?_, hm, hshape⟩
  rw [ioStep_trace, hg]
  simp [tick_trace, record, initS]

/- ## Claim theorems: session lifecycle, launch decision, join-before-wait -/

/-- C5: on every exit path, once the tab was acquired (CDP.New issued and
succeeded) the CDP.Close release is issued exactly once, and never otherwise;
once a local Chrome was launched (launch issued and it succeeded) the kill is
issued exactly once, and never otherwise; and when both happened, the kill
comes after the close — the trace ends `... closeTab ... kill`. -/
theorem session_and_process_released_once (env : Env) (html : String) (opts : CreateOptions) :
    ((Ev.newTab ∈ (create env html opts).1.trace ∧ env.newTabOk = true) →
      (create env html opts).1.trace.count Ev.closeTab = 1)
    ∧ (¬(Ev.newTab ∈ (create env html opts).1.trace ∧ env.newTabOk = true) →
      (create env html opts).1.trace.count Ev.closeTab = 0)
    ∧ ((Ev.launchChrome ∈ (create env html opts).1.trace ∧ env.launchRes ≠ none) →
      (create env html opts).1.trace.count Ev.kill = 1)
    ∧ (¬(Ev.launchChrome ∈ (create env html opts).1.trace ∧ env.launchRes ≠ none) →
      (create env html opts).1.trace.count Ev.kill = 0)
    ∧ ((env.newTabOk = true ∧ env.launchRes ≠ none ∧
        Ev.launchChrome ∈ (create env html opts).1.trace) →
      ∃ A B, (create env html opts).1.trace = A ++ Ev.closeTab :: (B ++ [Ev.kill])) := by
  cases hT : (truthyStr opts.host || truthyNat opts.port) with
  | true =>
    cases hN : env.newTabOk with
    | false =>
      rw [create_run_target_tabFail env html opts hT hN]
      refine ⟨?_, ?_, ?_, ?_, ?_⟩
      · rintro ⟨-, hok⟩
        exact absurd hok (by simp)
      · intro _
        decide
      · rintro ⟨hmem, -⟩
        exact absurd hmem (by decide)
      · intro _
        decide
      · rintro ⟨hok, -, -⟩
        exact absurd hok (by simp)
    | true =>
      obtain ⟨Δ, ht, hm, -⟩ := create_run_target_ok env html opts hT hN
      have hcΔ : Ev.closeTab ∉ Δ := fun hmem => by
        have := hm _ hmem
        simp [genEvs] at this
      have hkΔ : Ev.kill ∉ Δ := fun hmem => by
        have := hm _ hmem
        simp [genEvs] at this
      have hlΔ : Ev.launchChrome ∉ Δ := fun hmem => by
        have := hm _ hmem
        simp [genEvs] at this
      rw [ht]
      refine ⟨?_, ?_, ?_, ?_, ?_⟩
      · intro _
        simp [List.count_append, List.count_eq_zero.mpr hcΔ]
      · rintro hn
        exact absurd ⟨by simp, rfl⟩ hn
      · rintro ⟨hmem, -⟩
        rcases List.mem_append.mp hmem with hmem' | hmem'
        · rcases List.mem_append.mp hmem' with h' | h'
          · simp at h'
          · exact absurd h' hlΔ
        · simp at hmem'
      · intro _
        simp [List.count_append, List.count_eq_zero.mpr hkΔ]
      · rintro ⟨-, -, hmem⟩
        rcases List.mem_append.mp hmem with hmem' | hmem'
        · rcases List.mem_append.mp hmem' with h' | h'
          · simp at h'
          · exact absurd h' hlΔ
        · simp at hmem'
  | false =>
    cases hL : env.launchRes with
    | none =>
      rw [create_run_launchFail env html opts hT hL]
      refine ⟨?_, ?_, ?_, ?_, ?_⟩
      · rintro ⟨hmem, -⟩
        exact absurd hmem (by decide)
      · intro _
        decide
      · rintro ⟨-, hne⟩
        exact absurd rfl hne
      · intro _
        decide
      · rintro ⟨-, hne, -⟩
        exact absurd rfl hne
    | some p =>
      cases hN : env.newTabOk with
      | false =>
        rw [create_run_launched_tabFail env html opts hT hL hN]
        refine ⟨?_, ?_, ?_, ?_, ?_⟩
        · rintro ⟨-, hok⟩
          exact absurd hok (by simp)
        · intro _
          decide
        · intro _
          decide
        · rintro hn
          exact absurd ⟨by decide, by simp⟩ hn
        · rintro ⟨hok, -, -⟩
          exact absurd hok (by simp)
      | true =>
        obtain ⟨Δ, ht, hm, -⟩ := create_run_launched_ok env html opts hT hL hN
        have hcΔ : Ev.closeTab ∉ Δ := fun hmem => by
          have := hm _ hmem
          simp [genEvs] at this
        have hkΔ : Ev.kill ∉ Δ := fun hmem => by
          have := hm _ hmem
          simp [genEvs] at this
        rw [ht]
        refine ⟨?_, ?_, ?_, ?_, ?_⟩
        · intro _
          simp [List.count_append, List.count_eq_zero.mpr hcΔ]
        · rintro hn
          exact absurd ⟨by simp, rfl⟩ hn
        · intro _
          simp [List.count_append, List.count_eq_zero.mpr hkΔ]
        · rintro hn
          exact absurd ⟨by simp, by simp⟩ hn
        · intro _
          exact ⟨[Ev.launchChrome, Ev.newTab] ++ Δ, [], by simp⟩

/-- Closed instance of `session_and_process_released_once`: in the default
all-success launching run, CDP.Close is issued once and kill once. -/
theorem session_and_process_released_once_witness :
    (create {} "x" {}).1.trace.count Ev.closeTab = 1
    ∧ (create {} "x" {}).1.trace.count Ev.kill = 1 :=
  ⟨(session_and_process_released_once {} "x" {}).1 ⟨by decide, rfl⟩,
   (session_and_process_released_once {} "x" {}).2.2.1 ⟨by decide, by decide⟩⟩

/-- C8 (amended): create launches a local Chrome exactly when neither a truthy
host nor a truthy port is supplied — JavaScript truthiness, so an empty-string
host or a port of 0 counts as absent; when a truthy remote target is supplied,
create attaches (opens the tab against it) and never issues a launch or a
kill.  The unamended "present" reading fails at port 0 (see counterexample). -/
theorem launches_iff_target_falsy (env : Env) (html : String) (opts : CreateOptions) :
    (Ev.launchChrome ∈ (create env html opts).1.trace
      ↔ (truthyStr opts.host = false ∧ truthyNat opts.port = false))
    ∧ ((truthyStr opts.host = true ∨ truthyNat opts.port = true) →
        (Ev.newTab ∈ (create env html opts).1.trace ∧
         Ev.kill ∉ (create env html opts).1.trace)) := by
  cases hT : (truthyStr opts.host || truthyNat opts.port) with
  | true =>
    have hor : truthyStr opts.host = true ∨ truthyNat opts.port = true :=
      Bool.or_eq_true_iff.mp hT
    cases hN : env.newTabOk with
    | false =>
      rw [create_run_target_tabFail env html opts hT hN]
      refine ⟨⟨fun hmem => absurd hmem (by decide), ?_⟩, fun _ => ⟨by decide, by decide⟩⟩
      rintro ⟨h1, h2⟩
      rcases hor with h | h
      · rw [h1] at h
        exact absurd h (by decide)
      · rw [h2] at h
        exact absurd h (by decide)
    | true =>
      obtain ⟨Δ, ht, hm, -⟩ := create_run_target_ok env html opts hT hN
      have hlΔ : Ev.launchChrome ∉ Δ := fun hmem => by
        have := hm _ hmem
        simp [genEvs] at this
      have hkΔ : Ev.kill ∉ Δ := fun hmem => by
        have := hm _ hmem
        simp [genEvs] at this
      rw [ht]
      constructor
      · constructor
        · intro hmem
          exfalso
          rcases List.mem_append.mp hmem with h' | h'
          · rcases List.mem_append.mp h' with h'' | h''
            · simp at h''
            · exact hlΔ h''
          · simp at h'
        · rintro ⟨h1, h2⟩
          exfalso
          rcases hor with h | h
          · rw [h1] at h
            exact absurd h (by decide)
          · rw [h2] at h
            exact absurd h (by decide)
      · intro _
        refine ⟨by simp, ?_⟩
        intro hmem
        rcases List.mem_append.mp hmem with h' | h'
        · rcases List.mem_append.mp h' with h'' | h''
          · simp at h''
          · exact hkΔ h''
        · simp at h'
  | false =>
    have hff : truthyStr opts.host = false ∧ truthyNat opts.port = false := by
      constructor
      · cases hh : truthyStr opts.host
        · rfl
        · rw [hh] at hT
          simp at hT
      · cases hh : truthyNat opts.port
        · rfl
        · rw [hh] at hT
          simp at hT
    have hlaunch : Ev.launchChrome ∈ (create env html opts).1.trace := by
      cases hL : env.launchRes with
      | none =>
        rw [create_run_launchFail env html opts hT hL]
        decide
      | some p =>
        cases hN : env.newTabOk with
        | false =>
          rw [create_run_launched_tabFail env html opts hT hL hN]
          decide
        | true =>
          obtain ⟨Δ, ht, -, -⟩ := create_run_launched_ok env html opts hT hL hN
          rw [ht]
          simp
    refine ⟨⟨fun _ => hff, fun _ => hlaunch⟩, ?_⟩
    rintro (h | h)
    · rw [hff.1] at h
      exact absurd h (by decide)
    · rw [hff.2] at h
      exact absurd h (by decide)

/-- Closed instance of `launches_iff_target_falsy`: with a truthy remote host
supplied, create attaches without launching or killing a local process. -/
theorem launches_iff_target_falsy_witness :
    Ev.newTab ∈ (create {} "x" { host := some "remote" }).1.trace
    ∧ Ev.kill ∉ (create {} "x" { host := some "remote" }).1.trace :=
  (launches_iff_target_falsy {} "x" { host := some "remote" }).2 (Or.inl (by decide))

/-- C4: whenever the trace of a run decomposes at a trigger-wait invocation,
both the navigate command and the load event had already settled before it:
the unordered join completes — in whichever order the environment settles it —
before afterNavigate consults the completion trigger. -/
theorem navigate_load_settle_before_wait (env : Env) (html : String) (opts : CreateOptions)
    (pre post : List Ev)
    (h : (create env html opts).1.trace = pre ++ Ev.triggerWait :: post) :
    Ev.navigate ∈ pre ∧ Ev.loadEvent ∈ pre := by
  have htw : Ev.triggerWait ∈ (create env html opts).1.trace := by
    rw [h]
    exact List.mem_append_right _ (List.mem_cons_self _ _)
  cases hT : (truthyStr opts.host || truthyNat opts.port) with
  | true =>
    cases hN : env.newTabOk with
    | false =>
      rw [create_run_target_tabFail env html opts hT hN] at htw
      exact absurd htw (by decide)
    | true =>
      obtain ⟨Δ, ht, -, hshape⟩ := create_run_target_ok env html opts hT hN
      rw [ht] at h htw
      rcases hshape with hno | ⟨P, R, hPR, hnav, hload, hPtw, hRtw⟩
      · exfalso
        rcases List.mem_append.mp htw with h' | h'
        · rcases List.mem_append.mp h' with h'' | h''
          · simp at h''
          · exact hno h''
        · simp at h'
      · subst hPR
        have hre : [Ev.newTab] ++ (P ++ Ev.triggerWait :: R) ++ [Ev.closeTab]
            = ([Ev.newTab] ++ P) ++ Ev.triggerWait :: (R ++ [Ev.closeTab]) := by
          simp
        rw [hre] at h
        have hP' : Ev.triggerWait ∉ [Ev.newTab] ++ P :=
          List.not_mem_append (by decide) hPtw
        have hR' : Ev.triggerWait ∉ R ++ [Ev.closeTab] :=
          List.not_mem_append hRtw (by decide)
        obtain ⟨hpre, -⟩ := decomp_unique hP' hR' h
        rw [hpre]
        exact ⟨List.mem_append_right _ hnav, List.mem_append_right _ hload⟩
  | false =>
    cases hL : env.launchRes with
    | none =>
      rw [create_run_launchFail env html opts hT hL] at htw
      exact absurd htw (by decide)
    | some p =>
      cases hN : env.newTabOk with
      | false =>
        rw [create_run_launched_tabFail env html opts hT hL hN] at htw
        exact absurd htw (by decide)
      | true =>
        obtain ⟨Δ, ht, -, hshape⟩ := create_run_launched_ok env html opts hT hL hN
        rw [ht] at h htw
        rcases hshape with hno | ⟨P, R, hPR, hnav, hload, hPtw, hRtw⟩
        · exfalso
          rcases List.mem_append.mp htw with h' | h'
          · rcases List.mem_append.mp h' with h'' | h''
            · simp at h''
            · exact hno h''
          · simp at h'
        · subst hPR
          have hre : [Ev.launchChrome, Ev.newTab] ++ (P ++ Ev.triggerWait :: R)
              ++ [Ev.closeTab, Ev.kill]
              = ([Ev.launchChrome, Ev.newTab] ++ P)
                ++ Ev.triggerWait :: (R ++ [Ev.closeTab, Ev.kill]) := by
            simp
          rw [hre] at h
          have hP' : Ev.triggerWait ∉ [Ev.launchChrome, Ev.newTab] ++ P :=
            List.not_mem_append (by decide) hPtw
          have hR' : Ev.triggerWait ∉ R ++ [Ev.closeTab, Ev.kill] :=
            List.not_mem_append hRtw (by decide)
          obtain ⟨hpre, -⟩ := decomp_unique hP' hR' h
          rw [hpre]
          exact ⟨List.mem_append_right _ hnav, List.mem_append_right _ hload⟩

/-- Closed instance of `navigate_load_settle_before_wait` at the default
all-success run with a configured trigger. -/
theorem navigate_load_settle_before_wait_witness :
    Ev.navigate ∈ [Ev.launchChrome, Ev.newTab, Ev.connect, Ev.enableEvents,
      Ev.navigate, Ev.loadEvent]
    ∧ Ev.loadEvent ∈ [Ev.launchChrome, Ev.newTab, Ev.connect, Ev.enableEvents,
      Ev.navigate, Ev.loadEvent] :=
  navigate_load_settle_before_wait {} "x" { completionTrigger := true }
    [Ev.launchChrome, Ev.newTab, Ev.connect, Ev.enableEvents, Ev.navigate, Ev.loadEvent]
    [Ev.printToPDF, Ev.clientClose, Ev.closeTab, Ev.kill] (by decide)

/- ## The unarmed-timer invariant (timeout absent or negative) -/

/-- A state whose timer is not armed and whose cancellation flag is clear. -/
def UnarmedS (s : S) : Prop :=
  timeoutArmed s.myOpts.timeout = false ∧ s.myOpts._canceled = false

/-- A finished computation that kept the timer unarmed, the flag clear, and
did not reject with the Timeout error. -/
def UnarmedRun {α : Type} (r : S × Except PdfError α) : Prop :=
  timeoutArmed r.1.myOpts.timeout = false ∧ r.1.myOpts._canceled = false ∧
    r.2 ≠ .error .timeout

theorem ua_pure {α : Type} {s : S} {x : Except PdfError α}
    (hs : UnarmedS s) (hx : x ≠ .error .timeout) : UnarmedRun (s, x) :=
  ⟨hs.1, hs.2, hx⟩

theorem ua_guard {s : S} (hs : UnarmedS s) : UnarmedRun (throwIfCanceled s) := by
  rw [throwIfCanceled_pass hs.2]
  exact ua_pure hs (by simp)

theorem ua_tick {env : Env} {s : S} (hs : UnarmedS s) : UnarmedS (tick env s) := by
  unfold tick
  rw [hs.1]
  exact ⟨hs.1, hs.2⟩

theorem ua_record {e : Ev} {s : S} (hs : UnarmedS s) : UnarmedS (record e s) := hs

theorem ua_ioStep {env : Env} {e : Ev} {ok : Bool} {op : Op} {s : S}
    (hs : UnarmedS s) : UnarmedRun (ioStep env e ok op s) := by
  unfold ioStep
  refine ⟨(ua_tick (ua_record hs)).1, (ua_tick (ua_record hs)).2, ?_⟩
  cases ok <;> simp

theorem ua_andThen {α : Type} {r : S × Except PdfError Unit}
    {k : S → S × Except PdfError α}
    (h1 : UnarmedRun r) (h2 : ∀ s', UnarmedS s' → UnarmedRun (k s')) :
    UnarmedRun (andThen r k) := by
  rcases hr : r.2 with e | x
  · rw [andThen_err hr]
    refine ⟨h1.1, h1.2.1, ?_⟩
    intro hcon
    simp only [Except.error.injEq] at hcon
    exact h1.2.2 (by rw [hr, hcon])
  · cases x
    rw [andThen_ok hr]
    exact h2 r.1 ⟨h1.1, h1.2.1⟩

theorem ua_tryFinally {α : Type} {body : S → S × Except PdfError α}
    {fin : S → S × Except PdfError Unit} {s : S}
    (hb : UnarmedRun (body s)) (hf : ∀ s', UnarmedS s' → UnarmedRun (fin s')) :
    UnarmedRun (tryFinallyM body fin s) := by
  have hfr := hf (body s).1 ⟨hb.1, hb.2.1⟩
  rcases hfs : (fin (body s).1).2 with e | u
  · rw [tryFinallyM_fin_err hfs]
    refine ⟨hfr.1, hfr.2.1, ?_⟩
    intro hcon
    simp only [Except.error.injEq] at hcon
    exact hfr.2.2 (by rw [hfs, hcon])
  · cases u
    rw [tryFinallyM_fin_ok hfs]
    exact ⟨hfr.1, hfr.2.1, hb.2.2⟩

theorem ua_beforeNavigate (env : Env) {s : S} (hs : UnarmedS s) :
    UnarmedRun (beforeNavigate env s) := by
  unfold beforeNavigate
  apply ua_andThen (ua_guard hs)
  intro s1 hs1
  apply ua_andThen
  · split
    · exact ua_ioStep hs1
    · exact ua_pure hs1 (by simp)
  intro s2 hs2
  apply ua_andThen (ua_ioStep hs2)
  intro s3 hs3
  apply ua_andThen
  · split
    · exact ua_andThen (ua_guard hs3) (fun s4 hs4 => ua_pure (ua_record hs4) (by simp))
    · exact ua_pure hs3 (by simp)
  intro s4 hs4
  apply ua_andThen
  · split
    · exact ua_andThen (ua_guard hs4) (fun s5 hs5 => ua_pure (ua_record hs5) (by simp))
    · exact ua_pure hs4 (by simp)
  intro s5 hs5
  apply ua_andThen
  · split
    · exact ua_andThen (ua_guard hs5) (fun s6 hs6 => ua_ioStep hs6)
    · exact ua_pure hs5 (by simp)
  intro s6 hs6
  exact ua_guard hs6

theorem ua_navLoadJoin (env : Env) (url : String) {s : S} (hs : UnarmedS s) :
    UnarmedRun (navLoadJoin env url s) := by
  unfold navLoadJoin
  dsimp only
  have hs0 : UnarmedS { s with navigatedUrl := some url } := hs
  split
  · exact ua_andThen (ua_ioStep hs0) (fun s1 hs1 => ua_ioStep hs1)
  · exact ua_andThen (ua_ioStep hs0) (fun s1 hs1 => ua_ioStep hs1)

theorem ua_afterNavigate (env : Env) {s : S} (hs : UnarmedS s) :
    UnarmedRun (afterNavigate env s) := by
  unfold afterNavigate
  apply ua_andThen
  · split
    · apply ua_andThen (ua_guard hs)
      intro s1 hs1
      dsimp only
      have hs2 : UnarmedS (tick env (record .triggerWait s1)) := ua_tick (ua_record hs1)
      split
      · exact ua_pure hs2 (by simp)
      · exact ua_pure hs2 (by simp)
      · split
        · exact ua_andThen (ua_guard hs2) (fun s3 hs3 => ua_pure hs3 (by simp))
        · exact ua_pure hs2 (by simp)
    · exact ua_pure hs (by simp)
  intro s' hs'
  exact ua_guard hs'

theorem ua_generate (env : Env) (html : String) {s : S} (hs : UnarmedS s) :
    UnarmedRun (generate env html s) := by
  unfold generate
  apply ua_andThen (ua_guard hs)
  intro s1 hs1
  apply ua_andThen (ua_ioStep hs1)
  intro s2 hs2
  apply ua_tryFinally
  · apply ua_andThen (ua_beforeNavigate env hs2)
    intro s3 hs3
    apply ua_andThen (ua_navLoadJoin env (navigationUrl html) hs3)
    intro s4 hs4
    apply ua_andThen (ua_afterNavigate env hs4)
    intro s5 hs5
    apply ua_andThen (ua_ioStep hs5)
    intro s6 hs6
    apply ua_andThen (ua_guard hs6)
    intro s7 hs7
    exact ua_pure hs7 (by simp)
  · intro s' hs'
    exact ua_pure (ua_record hs') (by simp)

theorem ua_launchChrome (env : Env) {s : S} (hs : UnarmedS s) :
    UnarmedRun (launchChrome env s) := by
  unfold launchChrome
  dsimp only
  have hs1 : UnarmedS (tick env (record .launchChrome s)) := ua_tick (ua_record hs)
  cases env.launchRes with
  | none => exact ua_pure hs1 (by simp)
  | some p => exact ⟨hs1.1, hs1.2, by simp⟩

theorem ua_tabAndGenerate (env : Env) (html : String) {s : S} (hs : UnarmedS s) :
    UnarmedRun (tabAndGenerate env html s) := by
  unfold tabAndGenerate
  apply ua_andThen (ua_ioStep hs)
  intro s1 hs1
  exact ua_tryFinally (ua_generate env html hs1) (fun s' hs' => ua_ioStep hs')

theorem ua_create (env : Env) (html : String) (opts : CreateOptions)
    (h : timeoutArmed opts.timeout = false) : UnarmedRun (create env html opts) := by
  have hinit : UnarmedS (initS opts) := ⟨h, rfl⟩
  unfold create
  apply ua_andThen (ua_guard hinit)
  intro s1 hs1
  split
  · exact ua_tabAndGenerate env html hs1
  · apply ua_andThen (ua_guard hs1)
    intro s2 hs2
    apply ua_andThen (ua_launchChrome env hs2)
    intro s3 hs3
    exact ua_tryFinally (ua_tabAndGenerate env html hs3) (fun s' hs' => ua_ioStep hs')

/-- C1 (amended): for a timeout that is absent or strictly negative the arming
condition `myOptions.timeout >= 0` is false, so no timer is armed, the
cancellation flag is never set, and create never rejects with the Timeout
error — no matter which operations fail or how many await steps the run
takes.  The unamended "≤ 0" fails at timeout 0, which the code does arm (see
the counterexample). -/
theorem unarmed_timeout_never_rejects (env : Env) (html : String) (opts : CreateOptions)
    (h : opts.timeout = none ∨ ∃ t, opts.timeout = some t ∧ t < 0) :
    (create env html opts).1.myOpts._canceled = false ∧
    (create env html opts).2 ≠ .error .timeout := by
  have harm : timeoutArmed opts.timeout = false := by
    rcases h with h | ⟨t, ht, hlt⟩
    · rw [h]
      rfl
    · rw [ht]
      simp only [timeoutArmed, decide_eq_false_iff_not, not_le]
      exact hlt
  obtain ⟨-, hflag, hnt⟩ := ua_create env html opts harm
  exact ⟨hflag, hnt⟩

/-- Closed instance of `unarmed_timeout_never_rejects` at an absent timeout. -/
theorem unarmed_timeout_never_rejects_witness :
    (create {} "<h1>hi</h1>" {}).1.myOpts._canceled = false ∧
    (create {} "<h1>hi</h1>" {}).2 ≠ .error .timeout :=
  unarmed_timeout_never_rejects {} "<h1>hi</h1>" {} (Or.inl rfl)

/- ## Result analysis under an evaluation-failing trigger -/

theorem tick_trig (env : Env) (s : S) :
    (tick env s).myOpts.completionTrigger = s.myOpts.completionTrigger := by
  unfold tick
  split <;> rfl

theorem guard_trig (s : S) :
    (throwIfCanceled s).1.myOpts.completionTrigger = s.myOpts.completionTrigger := by
  unfold throwIfCanceled
  split <;> rfl

theorem ioStep_trig (env : Env) (e : Ev) (ok : Bool) (op : Op) (s : S) :
    (ioStep env e ok op s).1.myOpts.completionTrigger = s.myOpts.completionTrigger := by
  unfold ioStep
  exact tick_trig ..

theorem andThen_trig {α : Type} {r : S × Except PdfError Unit}
    {k : S → S × Except PdfError α} {s : S}
    (h1 : r.1.myOpts.completionTrigger = s.myOpts.completionTrigger)
    (h2 : ∀ s', (k s').1.myOpts.completionTrigger = s'.myOpts.completionTrigger) :
    (andThen r k).1.myOpts.completionTrigger = s.myOpts.completionTrigger := by
  rcases hr : r.2 with e | x
  · rw [andThen_err hr]
    exact h1
  · cases x
    rw [andThen_ok hr]
    exact (h2 r.1).trans h1

theorem beforeNavigate_trig (env : Env) (s : S) :
    (beforeNavigate env s).1.myOpts.completionTrigger = s.myOpts.completionTrigger := by
  unfold beforeNavigate
  apply andThen_trig (guard_trig s)
  intro s1
  apply andThen_trig
  · split
    · exact ioStep_trig ..
    · rfl
  intro s2
  apply andThen_trig (ioStep_trig ..)
  intro s3
  apply andThen_trig
  · split
    · exact andThen_trig (guard_trig s3) (fun s4 => rfl)
    · rfl
  intro s4
  apply andThen_trig
  · split
    · exact andThen_trig (guard_trig s4) (fun s5 => rfl)
    · rfl
  intro s5
  apply andThen_trig
  · split
    · exact andThen_trig (guard_trig s5) (fun s6 => ioStep_trig ..)
    · rfl
  intro s6
  exact guard_trig s6

theorem navLoadJoin_trig (env : Env) (url : String) (s : S) :
    (navLoadJoin env url s).1.myOpts.completionTrigger = s.myOpts.completionTrigger := by
  unfold navLoadJoin
  dsimp only
  split
  · exact andThen_trig (ioStep_trig ..) (fun s1 => ioStep_trig ..)
  · exact andThen_trig (ioStep_trig ..) (fun s1 => ioStep_trig ..)

/-- Resolve-or-trip: a computation that either succeeds or rejects with the
guard's Timeout error. -/
def OoT (r : S × Except PdfError Unit) : Prop :=
  r.2 = .ok () ∨ r.2 = .error .timeout

theorem oot_guard (s : S) : OoT (throwIfCanceled s) := by
  unfold throwIfCanceled
  split
  · exact Or.inr rfl
  · exact Or.inl rfl

theorem oot_pure_ok (s : S) : OoT (s, .ok ()) := Or.inl rfl

theorem oot_ioStep {env : Env} {e : Ev} {ok : Bool} {op : Op} {s : S}
    (h : ok = true) : OoT (ioStep env e ok op s) := Or.inl (ioStep_snd_ok h)

theorem oot_andThen {r : S × Except PdfError Unit} {k : S → S × Except PdfError Unit}
    (h1 : OoT r) (h2 : ∀ s', OoT (k s')) : OoT (andThen r k) := by
  rcases h1 with h | h
  · rw [andThen_ok h]
    exact h2 r.1
  · rw [andThen_err h]
    exact Or.inr rfl

/-- Given operations that succeed, every rejection beforeNavigate can produce
is a guard's Timeout error. -/
theorem bn_result (env : Env) (s : S)
    (hcc : env.clearCacheOk = true) (hen : env.enableOk = true)
    (hck : env.setCookiesOk = true) :
    OoT (beforeNavigate env s) := by
  unfold beforeNavigate
  apply oot_andThen (oot_guard s)
  intro s1
  apply oot_andThen
  · split
    · exact oot_ioStep hcc
    · exact oot_pure_ok s1
  intro s2
  apply oot_andThen (oot_ioStep hen)
  intro s3
  apply oot_andThen
  · split
    · exact oot_andThen (oot_guard s3) (fun s4 => oot_pure_ok _)
    · exact oot_pure_ok s3
  intro s4
  apply oot_andThen
  · split
    · exact oot_andThen (oot_guard s4) (fun s5 => oot_pure_ok _)
    · exact oot_pure_ok s4
  intro s5
  apply oot_andThen
  · split
    · exact oot_andThen (oot_guard s5) (fun s6 => oot_ioStep hck)
    · exact oot_pure_ok s5
  intro s6
  exact oot_guard s6

/-- The unordered join resolves when both of its operations succeed. -/
theorem join_ok {env : Env} (url : String) (s : S)
    (hnav : env.navigateOk = true) (hload : env.loadEventOk = true) :
    (navLoadJoin env url s).2 = .ok () := by
  unfold navLoadJoin
  dsimp only
  split
  · rw [andThen_ok (ioStep_snd_ok hnav)]
    exact ioStep_snd_ok hload
  · rw [andThen_ok (ioStep_snd_ok hload)]
    exact ioStep_snd_ok hnav

/-- When the configured trigger's wait resolves to an outcome carrying
exceptionDetails, afterNavigate rejects: with the evaluation error built from
the outcome's result value, or with the Timeout error when a guard observes
the flag first. -/
theorem an_evalFailure (env : Env) {s : S} (w : WaitOutcome)
    (htrig : s.myOpts.completionTrigger = true)
    (hres : env.waitRes = .resolved (some w)) (hexc : w.exceptionDetails = true) :
    (afterNavigate env s).2 = .error (.evaluation w.resultValue)
    ∨ (afterNavigate env s).2 = .error .timeout := by
  unfold afterNavigate
  split
  · by_cases hc : s.myOpts._canceled = true
    · rw [throwIfCanceled_trip hc, andThen_pure_err, andThen_pure_err]
      exact Or.inr rfl
    · have hc' : s.myOpts._canceled = false := by simpa using hc
      rw [throwIfCanceled_pass hc', andThen_pure_ok]
      dsimp only
      rw [hres]
      dsimp only
      rw [if_pos hexc]
      by_cases hc1 : (tick env (record .triggerWait s)).myOpts._canceled = true
      · rw [throwIfCanceled_trip hc1, andThen_pure_err, andThen_pure_err]
        exact Or.inr rfl
      · have hc1' : (tick env (record .triggerWait s)).myOpts._canceled = false := by
          simpa using hc1
        rw [throwIfCanceled_pass hc1', andThen_pure_ok, andThen_pure_err]
        exact Or.inl rfl
  · rename_i hfalse
    exact absurd htrig hfalse

/-- The launch step leaves the completion-trigger field of the options copy
unchanged (it only rewrites the port). -/
theorem launchChrome_trig (env : Env) (s : S) :
    (launchChrome env s).1.myOpts.completionTrigger = s.myOpts.completionTrigger := by
  unfold launchChrome
  cases env.launchRes <;> simp [tick_trig, record]

/-- Under succeeding operations and an evaluation-failing trigger outcome,
generate rejects (evaluation error, or Timeout when a guard fires first) and
never issues the print call. -/
theorem generate_evalFailure (env : Env) (html : String) {s : S} (w : WaitOutcome)
    (htrig : s.myOpts.completionTrigger = true)
    (hres : env.waitRes = .resolved (some w)) (hexc : w.exceptionDetails = true)
    (hcon : env.connectOk = true) (hcc : env.clearCacheOk = true)
    (hen : env.enableOk = true) (hck : env.setCookiesOk = true)
    (hnav : env.navigateOk = true) (hload : env.loadEventOk = true) :
    ∃ Δ, (generate env html s).1.trace = s.trace ++ Δ ∧ Ev.printToPDF ∉ Δ ∧
      ((generate env html s).2 = .error (.evaluation w.resultValue)
        ∨ (generate env html s).2 = .error .timeout) := by
  unfold generate
  rw [hcon]
  by_cases hc : s.myOpts._canceled = true
  · rw [throwIfCanceled_trip hc, andThen_pure_err]
    exact ⟨[Ev.guardTrip], by simp [record], by decide, Or.inr rfl⟩
  · have hc' : s.myOpts._canceled = false := by simpa using hc
    rw [throwIfCanceled_pass hc', andThen_pure_ok, andThen_ok (ioStep_snd_ok rfl)]
    rw [tryFinallyM_fin_ok rfl]
    dsimp only
    have hs2 : (ioStep env Ev.connect true Op.connect s).1.trace = s.trace ++ [Ev.connect] :=
      ioStep_trace ..
    obtain ⟨Δb, hbe, hbm, -, -, -⟩ :=
      beforeNavigate_chunk env (ioStep env Ev.connect true Op.connect s).1
    have hbp : Ev.printToPDF ∉ Δb := fun hmem => by
      have := hbm _ hmem
      simp [beforeEvs] at this
    rcases bn_result env (ioStep env Ev.connect true Op.connect s).1 hcc hen hck
      with hbok | hbtim
    · rw [andThen_ok hbok]
      rw [andThen_ok (join_ok (navigationUrl html)
        (beforeNavigate env (ioStep env Ev.connect true Op.connect s).1).1 hnav hload)]
      obtain ⟨Δj, hje, hjm, -, -, -⟩ := navLoadJoin_chunk env (navigationUrl html)
        (beforeNavigate env (ioStep env Ev.connect true Op.connect s).1).1
      have hjp : Ev.printToPDF ∉ Δj := fun hmem => by
        have := hjm _ hmem
        simp at this
      obtain ⟨Δa, hae, ham, -, -, -⟩ := afterNavigate_chunk env
        (navLoadJoin env (navigationUrl html)
          (beforeNavigate env (ioStep env Ev.connect true Op.connect s).1).1).1
      have hap : Ev.printToPDF ∉ Δa := fun hmem => by
        have := ham _ hmem
        simp [afterEvs] at this
      have htrig4 : (navLoadJoin env (navigationUrl html)
          (beforeNavigate env (ioStep env Ev.connect true Op.connect s).1).1).1.myOpts.completionTrigger
          = true := by
        rw [navLoadJoin_trig, beforeNavigate_trig, ioStep_trig]
        exact htrig
      rcases an_evalFailure env w htrig4 hres hexc with ha | ha
      · rw [andThen_err ha]
        refine ⟨[Ev.connect] ++ Δb ++ Δj ++ Δa ++ [Ev.clientClose], ?_, ?_, Or.inl rfl⟩
        · simp [record, hae, hje, hbe, hs2]
        · intro hmem
          simp only [List.mem_append] at hmem
          rcases hmem with (((h | h) | h) | h) | h
          · simp at h
          · exact hbp h
          · exact hjp h
          · exact hap h
          · simp at h
      · rw [andThen_err ha]
        refine ⟨[Ev.connect] ++ Δb ++ Δj ++ Δa ++ [Ev.clientClose], ?_, ?_, Or.inr rfl⟩
        · simp [record, hae, hje, hbe, hs2]
        · intro hmem
          simp only [List.mem_append] at hmem
          rcases hmem with (((h | h) | h) | h) | h
          · simp at h
          · exact hbp h
          · exact hjp h
          · exact hap h
          · simp at h
    · rw [andThen_err hbtim]
      refine ⟨[Ev.connect] ++ Δb ++ [Ev.clientClose], ?_, ?_, Or.inr rfl⟩
      · simp [record, hbe, hs2]
      · intro hmem
        simp only [List.mem_append] at hmem
        rcases hmem with (h | h) | h
        · simp at h
        · exact hbp h
        · simp at h

/-- Closed instance of `navigationUrl_matches_spec`: a plain HTML string is
classified as content and wrapped. -/
theorem navigationUrl_matches_spec_witness :
    navigationUrl "hello" =
      if specSchemeTest "hello" then "hello" else "data:text/html," ++ "hello" :=
  navigationUrl_matches_spec "hello"

/-- Closed instance of `create_never_mutates_caller_options` at the default
options. -/
theorem create_never_mutates_caller_options_witness :
    (create {} "x" ({} : CreateOptions)).1.callerOpts = ({} : CreateOptions) :=
  create_never_mutates_caller_options {} "x" {}

/- ## A recorded cancellation trip forces the Timeout result -/

/-- Relative to a starting state, a finished computation whose trace shows a
guard trip that was not already there rejected with the Timeout error: the
only rejection recorded as `guardTrip` is the guard's own, and only a failing
awaited finalizer could replace it. -/
def TripTO {α : Type} (r : S × Except PdfError α) (s : S) : Prop :=
  Ev.guardTrip ∈ r.1.trace → Ev.guardTrip ∈ s.trace ∨ r.2 = .error .timeout

theorem gt_mono {α : Type} {r : S × Except PdfError α} {u s : S}
    (h : TripTO r u) (hs : Ev.guardTrip ∈ u.trace → Ev.guardTrip ∈ s.trace) :
    TripTO r s := fun hm => (h hm).imp_left hs

theorem gt_pure {α : Type} (s : S) (x : Except PdfError α) : TripTO (s, x) s :=
  fun h => Or.inl h

theorem trip_record {s : S} (e : Ev) (he : e ≠ Ev.guardTrip)
    (h : Ev.guardTrip ∈ (record e s).trace) : Ev.guardTrip ∈ s.trace := by
  replace h : Ev.guardTrip ∈ s.trace ++ [e] := h
  rcases List.mem_append.mp h with h1 | h1
  · exact h1
  · exact absurd (List.mem_singleton.mp h1).symm he

theorem trip_tickRecord {env : Env} {s : S} (e : Ev) (he : e ≠ Ev.guardTrip)
    (h : Ev.guardTrip ∈ (tick env (record e s)).trace) : Ev.guardTrip ∈ s.trace := by
  rw [tick_trace] at h
  exact trip_record e he h

theorem gt_record {α : Type} {s : S} {x : Except PdfError α} (e : Ev)
    (he : e ≠ Ev.guardTrip) : TripTO (record e s, x) s :=
  fun h => Or.inl (trip_record e he h)

theorem gt_tickRecord {α : Type} {env : Env} {s : S} {x : Except PdfError α} (e : Ev)
    (he : e ≠ Ev.guardTrip) : TripTO (tick env (record e s), x) s :=
  fun h => Or.inl (trip_tickRecord e he h)

theorem gt_guard (s : S) : TripTO (throwIfCanceled s) s := by
  unfold throwIfCanceled
  split
  · intro _
    exact Or.inr rfl
  · exact gt_pure s _

theorem gt_ioStep {env : Env} {ok : Bool} {op : Op} {s : S} (e : Ev)
    (he : e ≠ Ev.guardTrip) : TripTO (ioStep env e ok op s) s :=
  gt_tickRecord e he

theorem gt_andThen {α : Type} {r : S × Except PdfError Unit}
    {k : S → S × Except PdfError α} {s : S}
    (h1 : TripTO r s) (h2 : ∀ s', TripTO (k s') s') :
    TripTO (andThen r k) s := by
  rcases hr : r.2 with e | x
  · rw [andThen_err hr]
    intro h
    rcases h1 h with h' | h'
    · exact Or.inl h'
    · have h12 := hr.symm.trans h'
      simp only [Except.error.injEq] at h12
      rw [h12]
      exact Or.inr rfl
  · cases x
    rw [andThen_ok hr]
    intro h
    rcases h2 r.1 h with h' | h'
    · rcases h1 h' with h'' | h''
      · exact Or.inl h''
      · exact absurd (hr.symm.trans h'') (by simp)
    · exact Or.inr h'

theorem gt_tryFinally {α : Type} {body : S → S × Except PdfError α}
    {fin : S → S × Except PdfError Unit} {s : S}
    (hb : TripTO (body s) s)
    (hfok : (fin (body s).1).2 = .ok ())
    (hft : Ev.guardTrip ∈ (fin (body s).1).1.trace → Ev.guardTrip ∈ (body s).1.trace) :
    TripTO (tryFinallyM body fin s) s := by
  rw [tryFinallyM_fin_ok hfok]
  intro h
  exact hb (hft h)

theorem gt_beforeNavigate (env : Env) (s : S) : TripTO (beforeNavigate env s) s := by
  unfold beforeNavigate
  apply gt_andThen (gt_guard s)
  intro s1
  apply gt_andThen
  · split
    · exact gt_ioStep Ev.clearCacheEv (by decide)
    · exact gt_pure s1 _
  intro s2
  apply gt_andThen (gt_ioStep Ev.enableEvents (by decide))
  intro s3
  apply gt_andThen
  · split
    · exact gt_andThen (gt_guard s3) (fun s4 => gt_record Ev.consoleSub (by decide))
    · exact gt_pure s3 _
  intro s4
  apply gt_andThen
  · split
    · exact gt_andThen (gt_guard s4) (fun s5 => gt_record Ev.exceptionSub (by decide))
    · exact gt_pure s4 _
  intro s5
  apply gt_andThen
  · split
    · exact gt_andThen (gt_guard s5) (fun s6 => gt_ioStep Ev.setCookies (by decide))
    · exact gt_pure s5 _
  intro s6
  exact gt_guard s6

theorem gt_navLoadJoin (env : Env) (url : String) (s : S) :
    TripTO (navLoadJoin env url s) s := by
  unfold navLoadJoin
  dsimp only
  split
  · exact gt_andThen (gt_mono (gt_ioStep Ev.navigate (by decide)) (fun h => h))
      (fun s1 => gt_ioStep Ev.loadEvent (by decide))
  · exact gt_andThen (gt_mono (gt_ioStep Ev.loadEvent (by decide)) (fun h => h))
      (fun s1 => gt_ioStep Ev.navigate (by decide))

theorem gt_afterNavigate (env : Env) (s : S) : TripTO (afterNavigate env s) s := by
  unfold afterNavigate
  apply gt_andThen
  · split
    · apply gt_andThen (gt_guard s)
      intro s1
      dsimp only
      split
      · exact gt_tickRecord Ev.triggerWait (by decide)
      · exact gt_tickRecord Ev.triggerWait (by decide)
      · split
        · exact gt_mono (gt_andThen (gt_guard _) (fun s2 => gt_pure s2 _))
            (trip_tickRecord Ev.triggerWait (by decide))
        · exact gt_tickRecord Ev.triggerWait (by decide)
    · exact gt_pure s _
  intro s'
  exact gt_guard s'

theorem gt_generate (env : Env) (html : String) (s : S) :
    TripTO (generate env html s) s := by
  unfold generate
  apply gt_andThen (gt_guard s)
  intro s1
  apply gt_andThen (gt_ioStep Ev.connect (by decide))
  intro s2
  apply gt_tryFinally
  · apply gt_andThen (gt_beforeNavigate env s2)
    intro s3
    apply gt_andThen (gt_navLoadJoin env (navigationUrl html) s3)
    intro s4
    apply gt_andThen (gt_afterNavigate env s4)
    intro s5
    apply gt_andThen (gt_ioStep Ev.printToPDF (by decide))
    intro s6
    apply gt_andThen (gt_guard s6)
    intro s7
    exact gt_pure s7 _
  · rfl
  · exact trip_record Ev.clientClose (by decide)

theorem gt_launchChrome (env : Env) (s : S) : TripTO (launchChrome env s) s := by
  unfold launchChrome
  dsimp only
  cases env.launchRes with
  | none => exact gt_tickRecord Ev.launchChrome (by decide)
  | some p =>
    intro h
    replace h : Ev.guardTrip ∈ (tick env (record Ev.launchChrome s)).trace := h
    exact Or.inl (trip_tickRecord Ev.launchChrome (by decide) h)

theorem gt_tabAndGenerate (env : Env) (html : String) (s : S)
    (hclose : env.closeTabOk = true) : TripTO (tabAndGenerate env html s) s := by
  unfold tabAndGenerate
  apply gt_andThen (gt_ioStep Ev.newTab (by decide))
  intro s1
  apply gt_tryFinally (gt_generate env html s1)
  · exact ioStep_snd_ok hclose
  · exact trip_tickRecord Ev.closeTab (by decide)

theorem gt_create (env : Env) (html : String) (opts : CreateOptions)
    (hclose : env.closeTabOk = true) (hkill : env.killOk = true) :
    TripTO (create env html opts) (initS opts) := by
  unfold create
  apply gt_andThen (gt_guard (initS opts))
  intro s1
  split
  · exact gt_tabAndGenerate env html s1 hclose
  · apply gt_andThen (gt_guard s1)
    intro s2
    apply gt_andThen (gt_launchChrome env s2)
    intro s3
    apply gt_tryFinally (gt_tabAndGenerate env html s3 hclose)
    · exact ioStep_snd_ok hkill
    · exact trip_tickRecord Ev.kill (by decide)

/-- C6 (amended): cancellation is observed only at the discrete guard
checkpoints.  Once the cancellation flag is observed set at a checkpoint
(recorded as guardTrip), the print-to-PDF call is never issued afterwards —
after a trip only finalizer calls occur; and every run that records a trip
rejects with the Timeout error, provided the awaited teardown steps (closing
the tab, killing the launched process) succeed — a failing awaited teardown
step replaces the Timeout with its own transport error (the defect recorded
at C7).  The unamended consequent "the deadline elapsing always forces a
Timeout rejection" fails when the timer fires after the run's final
checkpoint (see the counterexample). -/
theorem cancellation_guard_discipline :
    (∀ (env : Env) (html : String) (opts : CreateOptions) (pre post : List Ev),
      (create env html opts).1.trace = pre ++ Ev.guardTrip :: post →
        Ev.printToPDF ∉ post)
    ∧ (∀ (env : Env) (html : String) (opts : CreateOptions),
        env.closeTabOk = true → env.killOk = true →
        Ev.guardTrip ∈ (create env html opts).1.trace →
        (create env html opts).2 = .error .timeout) := by
  constructor
  · intro env html opts pre post h
    obtain ⟨Δ, h1, h2, h3, h4, h5⟩ := create_chunk env html opts
    have h0 : (initS opts).trace = [] := rfl
    rw [h1, h0] at h
    simp only [List.nil_append] at h
    intro hp
    have := h4 pre post h _ hp
    simp [finEvs] at this
  · intro env html opts hclose hkill h
    rcases gt_create env html opts hclose hkill h with h' | h'
    · replace h' : Ev.guardTrip ∈ ([] : List Ev) := h'
      simp at h'
    · exact h'

/-- Closed instance of `cancellation_guard_discipline`: in the run where the
timer fires after the third await, the guard trips right after the enable
step, only finalizer calls follow the trip, and create rejects with Timeout. -/
theorem cancellation_guard_discipline_witness :
    Ev.printToPDF ∉ [Ev.clientClose, Ev.closeTab, Ev.kill]
    ∧ (create { fireAfter := 3 } "x" { timeout := some 10 }).2 = .error .timeout :=
  ⟨cancellation_guard_discipline.1 { fireAfter := 3 } "x" { timeout := some 10 }
      [Ev.launchChrome, Ev.newTab, Ev.connect, Ev.enableEvents]
      [Ev.clientClose, Ev.closeTab, Ev.kill] (by decide),
   cancellation_guard_discipline.2 { fireAfter := 3 } "x" { timeout := some 10 }
      rfl rfl (by decide)⟩

/-- C3 (amended): when the configured completion trigger's wait resolves to an
outcome carrying exceptionDetails — the steps leading up to the wait
succeeding, so the wait is reached — create rejects and the print-to-PDF call
is never issued.  When the awaited teardown steps succeed, the rejection
carries the remote exception's message, except that a guard observing the
cancellation flag first rejects with the Timeout error instead (see the
counterexample); with succeeding teardown and no armed timeout the
evaluation error is guaranteed.  A failing awaited teardown step instead
replaces the rejection with its own transport error (the defect recorded at
C7), which is why the message guarantees are conditioned on teardown. -/
theorem trigger_evaluation_failure_rejects (env : Env) (html : String)
    (opts : CreateOptions) (w : WaitOutcome)
    (htrig : opts.completionTrigger = true)
    (hres : env.waitRes = .resolved (some w)) (hexc : w.exceptionDetails = true)
    (hL : env.launchRes ≠ none) (hN : env.newTabOk = true)
    (hcon : env.connectOk = true) (hcc : env.clearCacheOk = true)
    (hen : env.enableOk = true) (hck : env.setCookiesOk = true)
    (hnav : env.navigateOk = true) (hload : env.loadEventOk = true) :
    Ev.printToPDF ∉ (create env html opts).1.trace
    ∧ (∃ e, (create env html opts).2 = .error e)
    ∧ (env.closeTabOk = true → env.killOk = true →
        ((create env html opts).2 = .error (.evaluation w.resultValue)
         ∨ (create env html opts).2 = .error .timeout))
    ∧ (env.closeTabOk = true → env.killOk = true →
        (opts.timeout = none ∨ ∃ t, opts.timeout = some t ∧ t < 0) →
        (create env html opts).2 = .error (.evaluation w.resultValue)) := by
  have harm2 : (opts.timeout = none ∨ ∃ t, opts.timeout = some t ∧ t < 0) →
      (create env html opts).2 ≠ .error .timeout := by
    intro hto
    have harm : timeoutArmed opts.timeout = false := by
      rcases hto with h | ⟨t, ht, hlt⟩
      · rw [h]
        rfl
      · rw [ht]
        simp only [timeoutArmed, decide_eq_false_iff_not, not_le]
        exact hlt
    exact (ua_create env html opts harm).2.2
  cases hT : (truthyStr opts.host || truthyNat opts.port) with
  | true =>
    have htrigN : (tick env (record Ev.newTab (initS opts))).myOpts.completionTrigger
        = true := by
      rw [tick_trig]
      exact htrig
    obtain ⟨Δ, hg, hp, hr⟩ := generate_evalFailure env html w htrigN hres hexc
      hcon hcc hen hck hnav hload
    have heq1 : (create env html opts).1 =
        (ioStep env Ev.closeTab env.closeTabOk Op.closeTab
          (generate env html (tick env (record Ev.newTab (initS opts)))).1).1 := by
      rw [create_eq_target env html opts hT, tabAndGenerate_tabOk html hN,
        tryFinallyM_fst]
    have h2t : env.closeTabOk = true →
        (create env html opts).2 =
          (generate env html (tick env (record Ev.newTab (initS opts)))).2 := by
      intro hc
      rw [create_eq_target env html opts hT, tabAndGenerate_tabOk html hN,
        tryFinallyM_fin_ok (ioStep_snd_ok hc)]
    have h2f : env.closeTabOk = false →
        (create env html opts).2 = .error (.transport .closeTab) := by
      intro hc
      rw [create_eq_target env html opts hT, tabAndGenerate_tabOk html hN,
        tryFinallyM_fin_err (ioStep_snd_fail hc)]
    refine ⟨?_, ?_, ?_, ?_⟩
    · rw [heq1]
      show Ev.printToPDF ∉ (ioStep env Ev.closeTab env.closeTabOk Op.closeTab
        (generate env html (tick env (record Ev.newTab (initS opts)))).1).1.trace
      rw [ioStep_trace, hg, tick_trace]
      simp only [record, initS, List.nil_append, List.mem_append, List.mem_singleton]
      intro hmem
      rcases hmem with (h | h) | h
      · simp at h
      · exact hp h
      · simp at h
    · cases hc : env.closeTabOk with
      | false => exact ⟨_, h2f hc⟩
      | true =>
        rcases hr with h | h
        · exact ⟨_, (h2t hc).trans h⟩
        · exact ⟨_, (h2t hc).trans h⟩
    · intro hc _
      rcases hr with h | h
      · exact Or.inl ((h2t hc).trans h)
      · exact Or.inr ((h2t hc).trans h)
    · intro hc _ hto
      rcases hr with h | h
      · exact (h2t hc).trans h
      · exact absurd ((h2t hc).trans h) (harm2 hto)
  | false =>
    rcases hLs : env.launchRes with - | p
    · exact absurd hLs hL
    · have htrigN : (tick env (record Ev.newTab
          (launchChrome env (initS opts)).1)).myOpts.completionTrigger = true := by
        rw [tick_trig]
        show (launchChrome env (initS opts)).1.myOpts.completionTrigger = true
        rw [launchChrome_trig]
        exact htrig
      obtain ⟨Δ, hg, hp, hr⟩ := generate_evalFailure env html w htrigN hres hexc
        hcon hcc hen hck hnav hload
      have heq1 : (create env html opts).1 =
          (ioStep env Ev.kill env.killOk Op.kill
            (ioStep env Ev.closeTab env.closeTabOk Op.closeTab
              (generate env html
                (tick env (record Ev.newTab (launchChrome env (initS opts)).1))).1).1).1 := by
        rw [create_eq_launch env html opts hT, andThen_ok (launchChrome_snd_ok hLs),
          tryFinallyM_fst, tabAndGenerate_tabOk html hN, tryFinallyM_fst]
      have h2k : env.killOk = false →
          (create env html opts).2 = .error (.transport .kill) := by
        intro hk
        rw [create_eq_launch env html opts hT, andThen_ok (launchChrome_snd_ok hLs),
          tryFinallyM_fin_err (ioStep_snd_fail hk)]
      have h2c : env.killOk = true → env.closeTabOk = false →
          (create env html opts).2 = .error (.transport .closeTab) := by
        intro hk hc
        rw [create_eq_launch env html opts hT, andThen_ok (launchChrome_snd_ok hLs),
          tryFinallyM_fin_ok (ioStep_snd_ok hk), tabAndGenerate_tabOk html hN,
          tryFinallyM_fin_err (ioStep_snd_fail hc)]
      have h2ok : env.killOk = true → env.closeTabOk = true →
          (create env html opts).2 =
            (generate env html
              (tick env (record Ev.newTab (launchChrome env (initS opts)).1))).2 := by
        intro hk hc
        rw [create_eq_launch env html opts hT, andThen_ok (launchChrome_snd_ok hLs),
          tryFinallyM_fin_ok (ioStep_snd_ok hk), tabAndGenerate_tabOk html hN,
          tryFinallyM_fin_ok (ioStep_snd_ok hc)]
      refine ⟨?_, ?_, ?_, ?_⟩
      · rw [heq1]
        show Ev.printToPDF ∉ (ioStep env Ev.kill env.killOk Op.kill
            (ioStep env Ev.closeTab env.closeTabOk Op.closeTab
              (generate env html
                (tick env (record Ev.newTab (launchChrome env (initS opts)).1))).1).1).1.trace
        rw [ioStep_trace, ioStep_trace, hg, tick_trace]
        simp only [record, launchChrome_trace, initS, List.nil_append, List.mem_append,
          List.mem_singleton]
        intro hmem
        rcases hmem with ((h | h) | h) | h
        · simp at h
        · exact hp h
        · simp at h
        · simp at h
      · cases hk : env.killOk with
        | false => exact ⟨_, h2k hk⟩
        | true =>
          cases hc : env.closeTabOk with
          | false => exact ⟨_, h2c hk hc⟩
          | true =>
            rcases hr with h | h
            · exact ⟨_, (h2ok hk hc).trans h⟩
            · exact ⟨_, (h2ok hk hc).trans h⟩
      · intro hc hk
        rcases hr with h | h
        · exact Or.inl ((h2ok hk hc).trans h)
        · exact Or.inr ((h2ok hk hc).trans h)
      · intro hc hk hto
        rcases hr with h | h
        · exact (h2ok hk hc).trans h
        · exact absurd ((h2ok hk hc).trans h) (harm2 hto)

/-- Closed instance of `trigger_evaluation_failure_rejects`: with no timeout
armed and succeeding teardown, an exceptionDetails outcome with message boom
makes create reject with the evaluation error boom, and no print call appears
in the trace. -/
theorem trigger_evaluation_failure_rejects_witness :
    Ev.printToPDF ∉
      (create { waitRes := .resolved (some { exceptionDetails := true, resultValue := "boom" }) }
        "x" { completionTrigger := true }).1.trace
    ∧ (create { waitRes := .resolved (some { exceptionDetails := true, resultValue := "boom" }) }
        "x" { completionTrigger := true }).2 = .error (.evaluation "boom") := by
  have h := trigger_evaluation_failure_rejects
    { waitRes := .resolved (some { exceptionDetails := true, resultValue := "boom" }) }
    "x" { completionTrigger := true } { exceptionDetails := true, resultValue := "boom" }
    rfl rfl rfl (by decide) rfl rfl rfl rfl rfl rfl rfl
  exact ⟨h.1, h.2.2.2 rfl rfl (Or.inl rfl)⟩
